import Mathlib

/-!
Verification of the pdfme template-designer front end (src/src/main.ts).

The development shallowly embeds the parts of the program the claims are
about:

* a JSON value model (`Json`) with a pretty printer (`renderPretty`,
  modelling the browser's JSON.stringify(v, null, 2)), a compact printer
  (`renderComp`, modelling JSON.stringify(v)) and a recursive-descent
  parser (`parseJsonText`, modelling JSON.parse).  Numbers are modelled as
  exact scaled decimals (`Dec`), the form in which every numeric literal of
  a template document travels through JSON text; exponent-free decimal
  tokens are exactly what the printer emits, and the parser additionally
  accepts exponents, as JSON.parse does.
* a structured document model (`Doc`, `Page`, `Element`) covering the
  fields the handlers read and write (type / content / position), with a
  JSON representation (`docToJson` / `docOfJson`) so that the
  serialize-then-parse snapshots the handlers take can be modelled
  faithfully through the real printer and parser.
* the event handlers of main.ts: the upload handler (`uploadOnLoad`), the
  padding-input change handler (`paddingChange`), the autosave machinery
  (`initAutosave`, `autosaveToggle`, `designerEdit` on `AppState`) and the
  generate-button handler (`generateClick`), whose pagination / field-fill
  routine is `generateRoutine`.

Fallible code paths (thrown-and-caught exceptions, undefined property
accesses) are modelled by `Option`.  JavaScript's in-place object mutation
through aliases is modelled by explicit functional update at the mutated
key (`pmodify`): the source mutates the object returned by a key lookup,
which for an association-list page is exactly "update the first entry with
that key".
-/

/-! ### Small list helpers -/

/-- In-place update of index i of a list (models writing through a
JavaScript array index that is in bounds; out-of-range indices leave the
list unchanged, a case the embedded callers never reach). -/
def listModify {α : Type} (f : α → α) : Nat → List α → List α
  | _, [] => []
  | 0, x :: xs => f x :: xs
  | n + 1, x :: xs => x :: listModify f n xs

/-- JavaScript array index assignment a[i] = x for i ≤ a.length: replaces
in bounds, appends at the length (the only cases the embedded code
reaches). -/
def jsArraySet {α : Type} (l : List α) (i : Nat) (a : α) : List α :=
  if i < l.length then l.set i a else l ++ [a]

/-- Sequence a list of options: some of the list of values iff every
entry is some. -/
def optSequence {α : Type} : List (Option α) → Option (List α)
  | [] => some []
  | none :: _ => none
  | some a :: rest => (optSequence rest).map (a :: ·)

theorem listModify_length {α : Type} (f : α → α) (n : Nat) (l : List α) :
    (listModify f n l).length = l.length := by
  induction l generalizing n with
  | nil => cases n <;> rfl
  | cons x xs ih =>
    cases n with
    | zero => rfl
    | succ n => simp [listModify, ih]

/-! ### Decimal digit strings

The code builds strings from numbers via template literals and
i.toString(); JSON text contains decimal number tokens.  Both are modelled
with one structurally recursive digit printer, so that every string the
embedding produces evaluates by kernel reduction. -/

def digitChar (n : Nat) : Char :=
  match n with
  | 0 => '0' | 1 => '1' | 2 => '2' | 3 => '3' | 4 => '4'
  | 5 => '5' | 6 => '6' | 7 => '7' | 8 => '8' | _ => '9'

/-- Fuel-driven base-10 digit accumulator; fuel n+1 always suffices for n. -/
def natDigitsAux : Nat → Nat → List Char → List Char
  | 0, _, acc => acc
  | fuel + 1, n, acc =>
    if n < 10 then digitChar n :: acc
    else natDigitsAux fuel (n / 10) (digitChar (n % 10) :: acc)

/-- The base-10 digits of n, most significant first. -/
def natDigits (n : Nat) : List Char := natDigitsAux (n + 1) n []

/-- Decimal string of a natural number (models Number.prototype.toString
and template-literal interpolation of a nonnegative integer). -/
def natStr (n : Nat) : String := ⟨natDigits n⟩

/-- Numeric value of a digit character. -/
def digitVal (c : Char) : Nat := c.toNat - 48

def isDigit (c : Char) : Bool := 48 ≤ c.toNat && c.toNat ≤ 57

/-- Value of a digit string, most significant first. -/
def digitsVal (ds : List Char) : Nat := ds.foldl (fun acc c => acc * 10 + digitVal c) 0

/-! ### Exact scaled decimals

`Dec m e` denotes m / 10^e.  This is the exact-number model for JSON
number tokens and for every position / padding value the handlers
manipulate (the source manipulates IEEE doubles; all constants involved
are small decimals, which the exact model represents without rounding). -/

structure Dec where
  m : Int
  e : Nat
deriving DecidableEq, Repr

def Dec.ofInt (n : Int) : Dec := ⟨n, 0⟩

/-- Addition of scaled decimals by aligning exponents. -/
def Dec.add (a b : Dec) : Dec :=
  let e := max a.e b.e
  ⟨a.m * (10 : Int) ^ (e - a.e) + b.m * (10 : Int) ^ (e - b.e), e⟩

instance : Add Dec := ⟨Dec.add⟩

/-! ### Digit-string lemmas -/

theorem natDigitsAux_spec :
    ∀ n fuel acc, n < fuel → natDigitsAux fuel n acc = natDigits n ++ acc := by
  intro n
  induction n using Nat.strong_induction_on with
  | _ n ih =>
    intro fuel acc hlt
    match fuel, hlt with
    | f + 1, hlt =>
      by_cases h10 : n < 10
      · simp [natDigitsAux, h10, natDigits]
      · have hdiv : n / 10 < n := Nat.div_lt_self (by omega) (by omega)
        have hf : n / 10 < f := by omega
        have h2 : natDigits n = natDigits (n / 10) ++ [digitChar (n % 10)] := by
          rw [natDigits, natDigitsAux, if_neg h10]
          exact ih _ hdiv n _ (by omega)
        rw [natDigitsAux, if_neg h10, ih _ hdiv f _ hf, h2, List.append_assoc]
        rfl

theorem natDigits_step (n : Nat) (h : ¬ n < 10) :
    natDigits n = natDigits (n / 10) ++ [digitChar (n % 10)] := by
  have hdiv : n / 10 < n := Nat.div_lt_self (by omega) (by omega)
  rw [natDigits, natDigitsAux, if_neg h,
    natDigitsAux_spec _ _ _ (by omega)]

theorem natDigits_small (n : Nat) (h : n < 10) : natDigits n = [digitChar n] := by
  rw [natDigits, natDigitsAux, if_pos h]

theorem digitVal_digitChar : ∀ d, d < 10 → digitVal (digitChar d) = d := by decide

theorem isDigit_digitChar : ∀ d, d < 10 → isDigit (digitChar d) = true := by decide

theorem digitChar_ne_zero : ∀ d, d < 10 → d ≠ 0 → digitChar d ≠ '0' := by decide

theorem natDigits_all_digit (n : Nat) : ∀ c ∈ natDigits n, isDigit c = true := by
  induction n using Nat.strong_induction_on with
  | _ n ih =>
    by_cases h10 : n < 10
    · rw [natDigits_small n h10]
      simp [isDigit_digitChar n h10]
    · rw [natDigits_step n h10]
      have hdiv : n / 10 < n := Nat.div_lt_self (by omega) (by omega)
      simp only [List.mem_append, List.mem_singleton]
      rintro c (hc | rfl)
      · exact ih _ hdiv c hc
      · exact isDigit_digitChar _ (Nat.mod_lt _ (by omega))

theorem natDigits_ne_nil (n : Nat) : natDigits n ≠ [] := by
  by_cases h10 : n < 10
  · rw [natDigits_small n h10]; simp
  · rw [natDigits_step n h10]; simp

theorem digitsVal_cons_general (c : Char) (ds : List Char) (a : Nat) :
    List.foldl (fun acc c => acc * 10 + digitVal c) a (c :: ds) =
      List.foldl (fun acc c => acc * 10 + digitVal c) (a * 10 + digitVal c) ds := rfl

theorem digitsVal_foldl_init (ds : List Char) :
    ∀ a, List.foldl (fun acc c => acc * 10 + digitVal c) a ds =
      a * 10 ^ ds.length + digitsVal ds := by
  induction ds with
  | nil => intro a; simp [digitsVal]
  | cons c ds ih =>
    intro a
    rw [digitsVal_cons_general, ih]
    conv_rhs => rw [digitsVal, digitsVal_cons_general, ih]
    simp [pow_succ]
    ring

theorem digitsVal_append (a b : List Char) :
    digitsVal (a ++ b) = digitsVal a * 10 ^ b.length + digitsVal b := by
  rw [digitsVal, List.foldl_append, digitsVal_foldl_init]
  rfl

theorem digitsVal_natDigits (n : Nat) : digitsVal (natDigits n) = n := by
  induction n using Nat.strong_induction_on with
  | _ n ih =>
    by_cases h10 : n < 10
    · rw [natDigits_small n h10]
      simp [digitsVal, digitVal_digitChar n h10]
    · have hdiv : n / 10 < n := Nat.div_lt_self (by omega) (by omega)
      rw [natDigits_step n h10, digitsVal_append, ih _ hdiv]
      simp [digitsVal, digitVal_digitChar _ (Nat.mod_lt _ (by omega : (0:Nat) < 10))]
      omega

theorem digitsVal_replicate_zero (k : Nat) :
    digitsVal (List.replicate k '0') = 0 := by
  induction k with
  | zero => rfl
  | succ k ih =>
    rw [List.replicate_succ, digitsVal, digitsVal_cons_general]
    have := digitsVal_foldl_init (List.replicate k '0') (0 * 10 + digitVal '0')
    rw [this, ih]
    simp [digitVal]

theorem natDigits_head_ne_zero (n : Nat) (hn : n ≠ 0) :
    ∀ c, (natDigits n).head? = some c → c ≠ '0' := by
  induction n using Nat.strong_induction_on with
  | _ n ih =>
    intro c hc
    by_cases h10 : n < 10
    · rw [natDigits_small n h10] at hc
      simp only [List.head?_cons, Option.some.injEq] at hc
      subst hc
      exact digitChar_ne_zero n h10 hn
    · have hdiv : n / 10 < n := Nat.div_lt_self (by omega) (by omega)
      have hne : n / 10 ≠ 0 := by omega
      obtain ⟨d, ds, hds⟩ : ∃ d ds, natDigits (n / 10) = d :: ds := by
        cases h : natDigits (n / 10) with
        | nil => exact absurd h (natDigits_ne_nil _)
        | cons d ds => exact ⟨d, ds, rfl⟩
      rw [natDigits_step n h10, hds] at hc
      simp only [List.cons_append, List.head?_cons, Option.some.injEq] at hc
      subst hc
      exact ih _ hdiv hne _ (by rw [hds]; rfl)

/-! ### JSON values

JavaScript JSON trees, as produced by JSON.parse and consumed by
JSON.stringify.  Arrays and objects are mutual inductives (rather than
nested lists) so every function over them is structurally recursive and
kernel-computable.  Object fields keep insertion order, as JavaScript
objects do. -/

mutual
inductive Json where
  | null
  | bool (b : Bool)
  | num (n : Dec)
  | str (s : String)
  | arr (elems : JsonList)
  | obj (fields : JsonFields)

inductive JsonList where
  | nil
  | cons (hd : Json) (tl : JsonList)

inductive JsonFields where
  | fnil
  | fcons (key : String) (val : Json) (tl : JsonFields)
end

mutual
def sizeJ : Json → Nat
  | .null | .bool _ | .num _ | .str _ => 1
  | .arr l => sizeL l + 1
  | .obj f => sizeF f + 1

def sizeL : JsonList → Nat
  | .nil => 1
  | .cons x xs => sizeJ x + sizeL xs + 1

def sizeF : JsonFields → Nat
  | .fnil => 1
  | .fcons _ v fs => sizeJ v + sizeF fs + 1
end

/-! ### Character classes and string escaping -/

def isDigit' (c : Char) : Bool := isDigit c

def isWsChar (c : Char) : Bool :=
  c.toNat = 32 || c.toNat = 9 || c.toNat = 10 || c.toNat = 13

/-- Skip JSON whitespace, as JSON.parse does between tokens. -/
def skipWs : List Char → List Char
  | [] => []
  | c :: cs => if isWsChar c then skipWs cs else c :: cs

def hexChar (n : Nat) : Char :=
  match n with
  | 0 => '0' | 1 => '1' | 2 => '2' | 3 => '3' | 4 => '4' | 5 => '5'
  | 6 => '6' | 7 => '7' | 8 => '8' | 9 => '9' | 10 => 'a' | 11 => 'b'
  | 12 => 'c' | 13 => 'd' | 14 => 'e' | _ => 'f'

def hexVal (c : Char) : Option Nat :=
  if isDigit c then some (digitVal c)
  else if 97 ≤ c.toNat && c.toNat ≤ 102 then some (c.toNat - 87)
  else if 65 ≤ c.toNat && c.toNat ≤ 70 then some (c.toNat - 55)
  else none

/-- JSON.stringify's escaping of one string character: named escapes for
the common control characters, \u00XX for the other controls, everything
else literal. -/
def escapeChar (c : Char) : List Char :=
  if c = '"' then ['\\', '"']
  else if c = '\\' then ['\\', '\\']
  else if c = '\x08' then ['\\', 'b']
  else if c = '\x0c' then ['\\', 'f']
  else if c = '\n' then ['\\', 'n']
  else if c = '\r' then ['\\', 'r']
  else if c = '\t' then ['\\', 't']
  else if c.toNat < 32 then
    ['\\', 'u', '0', '0', hexChar (c.toNat / 16), hexChar (c.toNat % 16)]
  else [c]

def escChars : List Char → List Char
  | [] => []
  | c :: cs => escapeChar c ++ escChars cs

/-- The characters of a JSON string token (with its quotes). -/
def renderStrChars (s : String) : List Char :=
  '"' :: escChars s.data ++ ['"']

/-- The characters of a JSON number token for the exact decimal m/10^e:
the digits of m with a decimal point e places from the right (the form
JSON.stringify prints for such values). -/
def renderNumChars (d : Dec) : List Char :=
  let sign : List Char := if d.m < 0 then ['-'] else []
  let ds := natDigits d.m.natAbs
  if d.e = 0 then sign ++ ds
  else
    let len := max ds.length (d.e + 1)
    let padded := List.replicate (len - ds.length) '0' ++ ds
    sign ++ padded.take (len - d.e) ++ '.' :: padded.drop (len - d.e)

def nSpaces (n : Nat) : List Char := List.replicate n ' '

/-! ### Printers: JSON.stringify(v, null, 2) and JSON.stringify(v) -/

mutual
/-- Characters of JSON.stringify(v, null, 2) at indentation level ind. -/
def renderVal (ind : Nat) : Json → List Char
  | .null => ['n', 'u', 'l', 'l']
  | .bool b => if b then ['t', 'r', 'u', 'e'] else ['f', 'a', 'l', 's', 'e']
  | .num d => renderNumChars d
  | .str s => renderStrChars s
  | .arr l =>
    match l with
    | .nil => ['[', ']']
    | .cons _ _ =>
      '[' :: '\n' :: (renderElems (ind + 2) l ++ '\n' :: (nSpaces ind ++ [']']))
  | .obj fs =>
    match fs with
    | .fnil => ['\x7b', '\x7d']
    | .fcons _ _ _ =>
      '\x7b' :: '\n' :: (renderFields (ind + 2) fs ++ '\n' :: (nSpaces ind ++ ['\x7d']))

def renderElems (ind : Nat) : JsonList → List Char
  | .nil => []
  | .cons x xs =>
    nSpaces ind ++
      (renderVal ind x ++
        ((match xs with | .nil => [] | .cons _ _ => [',', '\n']) ++ renderElems ind xs))

def renderFields (ind : Nat) : JsonFields → List Char
  | .fnil => []
  | .fcons k v fs =>
    nSpaces ind ++
      (renderStrChars k ++ ':' :: ' ' ::
        (renderVal ind v ++
          ((match fs with | .fnil => [] | .fcons _ _ _ => [',', '\n']) ++
            renderFields ind fs)))
end

mutual
/-- Characters of JSON.stringify(v) (compact, no whitespace). -/
def renderValC : Json → List Char
  | .null => ['n', 'u', 'l', 'l']
  | .bool b => if b then ['t', 'r', 'u', 'e'] else ['f', 'a', 'l', 's', 'e']
  | .num d => renderNumChars d
  | .str s => renderStrChars s
  | .arr l =>
    match l with
    | .nil => ['[', ']']
    | .cons _ _ => '[' :: (renderElemsC l ++ [']'])
  | .obj fs =>
    match fs with
    | .fnil => ['\x7b', '\x7d']
    | .fcons _ _ _ => '\x7b' :: (renderFieldsC fs ++ ['\x7d'])

def renderElemsC : JsonList → List Char
  | .nil => []
  | .cons x xs =>
    renderValC x ++
      ((match xs with | .nil => [] | .cons _ _ => [',']) ++ renderElemsC xs)

def renderFieldsC : JsonFields → List Char
  | .fnil => []
  | .fcons k v fs =>
    renderStrChars k ++ ':' ::
      (renderValC v ++
        ((match fs with | .fnil => [] | .fcons _ _ _ => [',']) ++ renderFieldsC fs))
end

/-- JSON.stringify(v, null, 2): the pretty-printed serialization used by
the app's save / download / snapshot paths. -/
def renderPretty (v : Json) : String := ⟨renderVal 0 v⟩

/-- JSON.stringify(v): the compact serialization used for table-row
values. -/
def renderComp (v : Json) : String := ⟨renderValC v⟩

/-! ### Parser: JSON.parse

A recursive-descent parser for JSON text.  The string, number and
whitespace scanners are structurally recursive on the character list; the
value parser is driven by a fuel argument, with fuel = length + 1 always
sufficient.  The number grammar follows json.org (optional minus, no
leading zeros, optional fraction, optional exponent); printed values use
no exponents, and an exponent read at parse time is folded into the exact
decimal. -/

/-- Decoded character of a named (single-letter) escape sequence. -/
def escName (e : Char) : Option Char :=
  if e = '"' then some '"'
  else if e = '\\' then some '\\'
  else if e = '/' then some '/'
  else if e = 'b' then some '\x08'
  else if e = 'f' then some '\x0c'
  else if e = 'n' then some '\n'
  else if e = 'r' then some '\r'
  else if e = 't' then some '\t'
  else none

/-- String-body scanner (after the opening quote), fuel-driven so that it
is structurally recursive; every step consumes at least one input
character, so fuel = input length + 1 always suffices. -/
def parseStrBody : Nat → List Char → Option (List Char × List Char)
  | 0, _ => none
  | _ + 1, [] => none
  | fuel + 1, c :: rest =>
    if c = '"' then some ([], rest)
    else if c = '\\' then
      match rest with
      | [] => none
      | e :: rest2 =>
        if e = 'u' then
          match rest2 with
          | h1 :: h2 :: h3 :: h4 :: rest3 =>
            match hexVal h1, hexVal h2, hexVal h3, hexVal h4 with
            | some a, some b, some cc, some d =>
              (parseStrBody fuel rest3).map
                (fun p => (Char.ofNat (((a * 16 + b) * 16 + cc) * 16 + d) :: p.1, p.2))
            | _, _, _, _ => none
          | _ => none
        else
          match escName e with
          | some d => (parseStrBody fuel rest2).map (fun p => (d :: p.1, p.2))
          | none => none
    else if c.toNat < 32 then none
    else (parseStrBody fuel rest).map (fun p => (c :: p.1, p.2))

/-- Optional exponent part of a number token (0 when absent). -/
def parseExp (cs : List Char) : Option (Int × List Char) :=
  if cs.head? = some 'e' ∨ cs.head? = some 'E' then
    let cs1 := cs.tail
    let p : Int × List Char :=
      if cs1.head? = some '+' then (1, cs1.tail)
      else if cs1.head? = some '-' then (-1, cs1.tail)
      else (1, cs1)
    let eds := p.2.takeWhile isDigit
    if eds = [] then none
    else some (p.1 * (digitsVal eds : Int), p.2.dropWhile isDigit)
  else some (0, cs)

/-- Optional fraction part of a number token ([] when absent). -/
def parseFrac (cs : List Char) : Option (List Char × List Char) :=
  if cs.head? = some '.' then
    let fds := cs.tail.takeWhile isDigit
    if fds = [] then none else some (fds, cs.tail.dropWhile isDigit)
  else some ([], cs)

/-- Combine sign, combined digit magnitude and decimal exponent into an
exact decimal (positive powers of ten are folded into the mantissa, as
JSON.parse folds exponents into the numeric value). -/
def mkDec (neg : Bool) (mag : Nat) (e : Int) : Dec :=
  let sgn : Int := if neg then -1 else 1
  if e ≤ 0 then ⟨sgn * mag * (10 : Int) ^ (-e).toNat, 0⟩ else ⟨sgn * mag, e.toNat⟩

def parseNumBody (neg : Bool) (cs1 : List Char) : Option (Dec × List Char) :=
  let intDs := cs1.takeWhile isDigit
  if intDs = [] then none
  else if intDs.head? = some '0' ∧ intDs.length ≠ 1 then none
  else
    match parseFrac (cs1.dropWhile isDigit) with
    | none => none
    | some (fds, cs2) =>
      match parseExp cs2 with
      | none => none
      | some (ex, cs3) =>
        some (mkDec neg (digitsVal (intDs ++ fds)) ((fds.length : Int) - ex), cs3)

def parseNum (cs : List Char) : Option (Dec × List Char) :=
  if cs.head? = some '-' then parseNumBody true cs.tail else parseNumBody false cs

def stripPrefixChars : List Char → List Char → Option (List Char)
  | [], cs => some cs
  | _ :: _, [] => none
  | p :: ps, c :: cs => if c = p then stripPrefixChars ps cs else none

mutual
def parseVal : Nat → List Char → Option (Json × List Char)
  | 0, _ => none
  | fuel + 1, cs =>
    match skipWs cs with
    | [] => none
    | c :: rest =>
      if c = '\x7b' then
        let r := skipWs rest
        if r.head? = some '\x7d' then some (.obj .fnil, r.tail)
        else (parseFields fuel r).map (fun p => (.obj p.1, p.2))
      else if c = '[' then
        let r := skipWs rest
        if r.head? = some ']' then some (.arr .nil, r.tail)
        else (parseElems fuel r).map (fun p => (.arr p.1, p.2))
      else if c = '"' then
        (parseStrBody (rest.length + 1) rest).map (fun p => (.str ⟨p.1⟩, p.2))
      else if c = 'n' then
        (stripPrefixChars ['u', 'l', 'l'] rest).map (fun r => (.null, r))
      else if c = 't' then
        (stripPrefixChars ['r', 'u', 'e'] rest).map (fun r => (.bool true, r))
      else if c = 'f' then
        (stripPrefixChars ['a', 'l', 's', 'e'] rest).map (fun r => (.bool false, r))
      else
        (parseNum (c :: rest)).map (fun p => (.num p.1, p.2))

def parseElems : Nat → List Char → Option (JsonList × List Char)
  | 0, _ => none
  | fuel + 1, cs =>
    match parseVal fuel cs with
    | some (v, r) =>
      let r2 := skipWs r
      if r2.head? = some ',' then
        (parseElems fuel r2.tail).map (fun p => (.cons v p.1, p.2))
      else if r2.head? = some ']' then some (.cons v .nil, r2.tail)
      else none
    | none => none

def parseFields : Nat → List Char → Option (JsonFields × List Char)
  | 0, _ => none
  | fuel + 1, cs =>
    match skipWs cs with
    | '"' :: rest =>
      match parseStrBody (rest.length + 1) rest with
      | some (k, r) =>
        let r1 := skipWs r
        if r1.head? = some ':' then
          match parseVal fuel r1.tail with
          | some (v, r3) =>
            let r4 := skipWs r3
            if r4.head? = some ',' then
              (parseFields fuel r4.tail).map (fun p => (.fcons ⟨k⟩ v p.1, p.2))
            else if r4.head? = some '\x7d' then some (.fcons ⟨k⟩ v .fnil, r4.tail)
            else none
          | none => none
        else none
      | none => none
    | _ => none
end

/-- JSON.parse: parse a whole text; trailing whitespace is allowed, any
other trailing character is an error.  Invalid text yields none (the
thrown SyntaxError of the source). -/
def parseJsonText (s : String) : Option Json :=
  match parseVal (s.data.length + 1) s.data with
  | some (v, rest) => if skipWs rest = [] then some v else none
  | none => none

/-! ### Character-class and whitespace lemmas -/

theorem isDigit_bounds {c : Char} (h : isDigit c = true) :
    48 ≤ c.toNat ∧ c.toNat ≤ 57 := by
  simpa [isDigit, Bool.and_eq_true, decide_eq_true_eq] using h

theorem char_ne_of_toNat {c d : Char} (h : c.toNat ≠ d.toNat) : c ≠ d :=
  fun he => h (by rw [he])

theorem digit_ne {c : Char} (h : isDigit c = true) (d : Char)
    (hd : d.toNat < 48 ∨ 57 < d.toNat) : c ≠ d := by
  have hb := isDigit_bounds h
  exact char_ne_of_toNat (by omega)

theorem isWsChar_false_of_digit {c : Char} (h : isDigit c = true) :
    isWsChar c = false := by
  have hb := isDigit_bounds h
  simp only [isWsChar, Bool.or_eq_false_iff, decide_eq_false_iff_not]
  omega

theorem skipWs_cons_ws {c : Char} (t : List Char) (h : isWsChar c = true) :
    skipWs (c :: t) = skipWs t := by simp [skipWs, h]

theorem skipWs_cons_not {c : Char} (t : List Char) (h : isWsChar c = false) :
    skipWs (c :: t) = c :: t := by simp [skipWs, h]

def allWs (l : List Char) : Prop := ∀ c ∈ l, isWsChar c = true

theorem allWs_nil : allWs [] := by intro c hc; cases hc

theorem allWs_nSpaces (n : Nat) : allWs (nSpaces n) := by
  intro c hc
  rw [nSpaces, List.mem_replicate] at hc
  rw [hc.2]; rfl

theorem skipWs_append_ws {pre : List Char} (h : allWs pre) (X : List Char) :
    skipWs (pre ++ X) = skipWs X := by
  induction pre with
  | nil => rfl
  | cons c t ih =>
    rw [List.cons_append, skipWs_cons_ws _ (h c (List.mem_cons_self c t))]
    exact ih (fun d hd => h d (List.mem_cons_of_mem c hd))

theorem skipWs_idem (cs : List Char) : skipWs (skipWs cs) = skipWs cs := by
  induction cs with
  | nil => rfl
  | cons c t ih =>
    by_cases h : isWsChar c = true
    · rw [skipWs_cons_ws _ h, ih]
    · rw [skipWs_cons_not _ (by simpa using h), skipWs_cons_not _ (by simpa using h)]

theorem takeWhile_append_all {p : Char → Bool} (ds rest : List Char)
    (h : ∀ c ∈ ds, p c = true) (hr : ∀ c, rest.head? = some c → p c = false) :
    (ds ++ rest).takeWhile p = ds ∧ (ds ++ rest).dropWhile p = rest := by
  induction ds with
  | nil =>
    cases rest with
    | nil => exact ⟨rfl, rfl⟩
    | cons c t =>
      have := hr c rfl
      simp [List.takeWhile, List.dropWhile, this]
  | cons d ds ih =>
    have hd := h d (List.mem_cons_self d ds)
    have := ih (fun c hc => h c (List.mem_cons_of_mem d hc))
    simp [List.takeWhile, List.dropWhile, hd, this.1, this.2]

theorem hexVal_hexChar : ∀ n, n < 16 → hexVal (hexChar n) = some n := by decide

/-! ### String-token round trip -/

theorem parseStrBody_esc (l : List Char) :
    ∀ fuel rest, l.length < fuel →
      parseStrBody fuel (escChars l ++ '"' :: rest) = some (l, rest) := by
  induction l with
  | nil =>
    intro fuel rest h
    match fuel, h with
    | f + 1, _ => rfl
  | cons c cs ihl =>
    intro fuel rest h
    match fuel, h with
    | f + 1, h =>
    have ih : parseStrBody f (escChars cs ++ '"' :: rest) = some (cs, rest) :=
      ihl f rest (by simpa using Nat.lt_of_succ_lt_succ h)
    show parseStrBody (f + 1) ((escapeChar c ++ escChars cs) ++ '"' :: rest) = _
    rw [escapeChar]
    by_cases h1 : c = '"'
    · subst h1; simp [parseStrBody, escName, ih]
    · rw [if_neg h1]
      by_cases h2 : c = '\\'
      · subst h2; simp [parseStrBody, escName, ih]
      · rw [if_neg h2]
        by_cases h3 : c = '\x08'
        · subst h3; simp [parseStrBody, escName, ih]
        · rw [if_neg h3]
          by_cases h4 : c = '\x0c'
          · subst h4; simp [parseStrBody, escName, ih]
          · rw [if_neg h4]
            by_cases h5 : c = '\n'
            · subst h5; simp [parseStrBody, escName, ih]
            · rw [if_neg h5]
              by_cases h6 : c = '\r'
              · subst h6; simp [parseStrBody, escName, ih]
              · rw [if_neg h6]
                by_cases h7 : c = '\t'
                · subst h7; simp [parseStrBody, escName, ih]
                · rw [if_neg h7]
                  by_cases h8 : c.toNat < 32
                  · rw [if_pos h8]
                    have e1 : hexVal (hexChar (c.toNat / 16)) = some (c.toNat / 16) :=
                      hexVal_hexChar _ (by omega)
                    have e2 : hexVal (hexChar (c.toNat % 16)) = some (c.toNat % 16) :=
                      hexVal_hexChar _ (Nat.mod_lt _ (by omega))
                    have e0 : hexVal '0' = some 0 := rfl
                    have harith : c.toNat / 16 * 16 + c.toNat % 16 = c.toNat := by
                      omega
                    simp only [List.cons_append, List.nil_append]
                    rw [parseStrBody.eq_def]
                    simp [e0, e1, e2, harith, Char.ofNat_toNat, ih]
                  · rw [if_neg h8]
                    simp only [List.cons_append, List.nil_append]
                    rw [parseStrBody.eq_def]
                    simp [h1, h2, h8, ih]

/-! ### Number-token round trip -/

/-- The characters after a rendered number token must not extend the
token: no digit, decimal point or exponent marker at the head.  Every
context in which the printers emit a number satisfies this. -/
def numDelim (cs : List Char) : Prop :=
  ∀ c, cs.head? = some c → isDigit c = false ∧ c ≠ '.' ∧ c ≠ 'e' ∧ c ≠ 'E'

theorem numDelim_nil : numDelim [] := by intro c hc; cases hc

theorem parseFrac_no_dot (cs : List Char) (h : ∀ c, cs.head? = some c → c ≠ '.') :
    parseFrac cs = some ([], cs) := by
  rw [parseFrac, if_neg]
  intro hc
  exact (h '.' hc) rfl

theorem parseExp_no_exp (cs : List Char)
    (h : ∀ c, cs.head? = some c → c ≠ 'e' ∧ c ≠ 'E') :
    parseExp cs = some (0, cs) := by
  rw [parseExp, if_neg]
  rintro (hc | hc)
  · exact (h 'e' hc).1 rfl
  · exact (h 'E' hc).2 rfl

theorem parseNumBody_int (neg : Bool) (mag : Nat) (rest : List Char)
    (hrest : numDelim rest) :
    parseNumBody neg (natDigits mag ++ rest) =
      some (⟨(if neg then (-1 : Int) else 1) * mag, 0⟩, rest) := by
  have hall := natDigits_all_digit mag
  have hr : ∀ c, rest.head? = some c → isDigit c = false := fun c hc => (hrest c hc).1
  have hspan := takeWhile_append_all (natDigits mag) rest hall hr
  have hne := natDigits_ne_nil mag
  have hlead : ¬((natDigits mag).head? = some '0' ∧ (natDigits mag).length ≠ 1) := by
    rintro ⟨h0, hlen⟩
    by_cases hmz : mag = 0
    · subst hmz
      exact hlen (by rfl)
    · exact natDigits_head_ne_zero mag hmz '0' h0 rfl
  have hfrac2 : parseFrac rest = some ([], rest) :=
    parseFrac_no_dot rest (fun c hc => (hrest c hc).2.1)
  have hexp : parseExp rest = some (0, rest) :=
    parseExp_no_exp rest (fun c hc => ⟨(hrest c hc).2.2.1, (hrest c hc).2.2.2⟩)
  simp only [parseNumBody, hspan.1, hspan.2, hfrac2, hexp, if_neg hne, if_neg hlead]
  cases neg <;> simp [mkDec, digitsVal_natDigits]

theorem parseNumBody_frac (neg : Bool) (mag e : Nat) (he : e ≠ 0) (rest : List Char)
    (hrest : numDelim rest) (len : Nat) (padded : List Char)
    (hlen : len = max (natDigits mag).length (e + 1))
    (hpad : padded = List.replicate (len - (natDigits mag).length) '0' ++ natDigits mag) :
    parseNumBody neg (padded.take (len - e) ++ '.' :: (padded.drop (len - e) ++ rest)) =
      some (⟨(if neg then (-1 : Int) else 1) * mag, e⟩, rest) := by
  have hdsle : (natDigits mag).length ≤ len := by rw [hlen]; exact le_max_left _ _
  have hele : e + 1 ≤ len := by rw [hlen]; exact le_max_right _ _
  have hplen : padded.length = len := by
    rw [hpad]; simp; omega
  have hallp : ∀ c ∈ padded, isDigit c = true := by
    intro c hc
    rw [hpad, List.mem_append] at hc
    rcases hc with hc | hc
    · rw [List.mem_replicate] at hc
      rw [hc.2]; rfl
    · exact natDigits_all_digit mag c hc
  have hiplen : (padded.take (len - e)).length = len - e := by
    rw [List.length_take, hplen]; omega
  have hfplen : (padded.drop (len - e)).length = e := by
    rw [List.length_drop, hplen]; omega
  have hallip : ∀ c ∈ padded.take (len - e), isDigit c = true :=
    fun c hc => hallp c (List.take_subset _ _ hc)
  have hallfp : ∀ c ∈ padded.drop (len - e), isDigit c = true :=
    fun c hc => hallp c (List.drop_subset _ _ hc)
  have hspan := takeWhile_append_all (padded.take (len - e))
    ('.' :: (padded.drop (len - e) ++ rest)) hallip
    (by intro c hc; injection hc with hc; rw [← hc]; rfl)
  have hipne : padded.take (len - e) ≠ [] := by
    intro hnil
    have := hiplen
    rw [hnil] at this
    simp at this
    omega
  have hlead : ¬((padded.take (len - e)).head? = some '0' ∧
      (padded.take (len - e)).length ≠ 1) := by
    rintro ⟨h0, hlen1⟩
    rw [hiplen] at hlen1
    by_cases hcase : (natDigits mag).length ≤ e
    · have : len = e + 1 := by omega
      omega
    · have hlen2 : len = (natDigits mag).length := by omega
      have hpad0 : padded = natDigits mag := by
        rw [hpad, hlen2]
        simp
      by_cases hmz : mag = 0
      · subst hmz
        have : (natDigits 0).length = 1 := rfl
        omega
      · obtain ⟨dd, dt, hdt⟩ : ∃ dd dt, natDigits mag = dd :: dt := by
          cases hh : natDigits mag with
          | nil => exact absurd hh (natDigits_ne_nil _)
          | cons dd dt => exact ⟨dd, dt, rfl⟩
        obtain ⟨k, hk⟩ : ∃ k, len - e = k + 1 := ⟨len - e - 1, by omega⟩
        rw [hpad0, hdt, hk] at h0
        simp only [List.take_succ_cons, List.head?_cons, Option.some.injEq] at h0
        exact natDigits_head_ne_zero mag hmz dd (by rw [hdt]; rfl) h0
  have hfrac :
      parseFrac (('.' :: (padded.drop (len - e) ++ rest))) =
        some (padded.drop (len - e), rest) := by
    have hsp2 := takeWhile_append_all (padded.drop (len - e)) rest hallfp
      (fun c hc => (hrest c hc).1)
    rw [parseFrac, if_pos (by rfl)]
    simp only [List.tail_cons, hsp2.1, hsp2.2]
    rw [if_neg]
    intro hnil
    rw [hnil] at hfplen
    simp at hfplen
    omega
  have hexp : parseExp rest = some (0, rest) :=
    parseExp_no_exp rest (fun c hc => ⟨(hrest c hc).2.2.1, (hrest c hc).2.2.2⟩)
  have hmagval : digitsVal (padded.take (len - e) ++ padded.drop (len - e)) = mag := by
    rw [List.take_append_drop, hpad, digitsVal_append, digitsVal_replicate_zero,
      digitsVal_natDigits]
    simp
  simp only [parseNumBody, hspan.1, hspan.2, if_neg hipne, if_neg hlead, hfrac, hexp]
  rw [hfplen]
  simp only [mkDec]
  rw [if_neg (by omega : ¬ ((e : Int) - 0 ≤ 0))]
  rw [← hmagval, List.take_append_drop]
  norm_num

theorem dec_pair_eq (a b : Int) (e : Nat) (r : List Char) (h : a = b) :
    (some (⟨a, e⟩, r) : Option (Dec × List Char)) = some (⟨b, e⟩, r) := by rw [h]

theorem head_digit_cases (X : List Char) (hne : X ≠ [])
    (hall : ∀ c ∈ X, isDigit c = true) :
    ∃ c t, X = c :: t ∧ isDigit c = true := by
  cases X with
  | nil => exact absurd rfl hne
  | cons c t => exact ⟨c, t, rfl, hall c (List.mem_cons_self c t)⟩

theorem parseNum_render (d : Dec) (rest : List Char) (h : numDelim rest) :
    parseNum (renderNumChars d ++ rest) = some (d, rest) := by
  obtain ⟨m, e⟩ := d
  rw [renderNumChars]
  simp only
  by_cases he : e = 0
  · subst he
    rw [if_pos rfl]
    by_cases hm : m < 0
    · rw [if_pos hm]
      simp only [List.cons_append, List.nil_append, List.append_assoc]
      rw [parseNum]
      simp only [List.head?_cons, List.tail_cons, if_pos]
      rw [parseNumBody_int true _ rest h]
      exact dec_pair_eq _ _ _ _ (by rw [if_pos rfl]; omega)
    · rw [if_neg hm]
      simp only [List.nil_append]
      obtain ⟨c, t, hct, hdig⟩ :=
        head_digit_cases (natDigits m.natAbs) (natDigits_ne_nil _)
          (natDigits_all_digit _)
      rw [hct, List.cons_append, parseNum]
      rw [if_neg (by
        simp only [List.head?_cons, Option.some.injEq]
        intro hc
        exact digit_ne hdig '-' (by decide) hc)]
      rw [← List.cons_append, ← hct, parseNumBody_int false _ rest h]
      exact dec_pair_eq _ _ _ _ (by rw [if_neg Bool.false_ne_true]; omega)
  · rw [if_neg he]
    have hdsle : (natDigits m.natAbs).length ≤ max (natDigits m.natAbs).length (e + 1) :=
      le_max_left _ _
    have hele : e + 1 ≤ max (natDigits m.natAbs).length (e + 1) := le_max_right _ _
    have hplen :
        (List.replicate (max (natDigits m.natAbs).length (e + 1) -
            (natDigits m.natAbs).length) '0' ++ natDigits m.natAbs).length =
          max (natDigits m.natAbs).length (e + 1) := by
      simp only [List.length_append, List.length_replicate]
      omega
    have hallp : ∀ c ∈ List.replicate (max (natDigits m.natAbs).length (e + 1) -
        (natDigits m.natAbs).length) '0' ++ natDigits m.natAbs, isDigit c = true := by
      intro c hc
      rw [List.mem_append] at hc
      rcases hc with hc | hc
      · rw [List.mem_replicate] at hc
        rw [hc.2]; rfl
      · exact natDigits_all_digit _ c hc
    have hipne :
        (List.replicate (max (natDigits m.natAbs).length (e + 1) -
            (natDigits m.natAbs).length) '0' ++ natDigits m.natAbs).take
          (max (natDigits m.natAbs).length (e + 1) - e) ≠ [] := by
      intro hnil
      have h1 := congrArg List.length hnil
      rw [List.length_take, hplen] at h1
      simp only [List.length_nil] at h1
      omega
    by_cases hm : m < 0
    · rw [if_pos hm]
      simp only [List.cons_append, List.nil_append, List.append_assoc, List.cons_append]
      rw [parseNum]
      simp only [List.head?_cons, List.tail_cons, if_pos]
      rw [parseNumBody_frac true _ e he rest h _ _ rfl rfl]
      exact dec_pair_eq _ _ _ _ (by rw [if_pos rfl]; omega)
    · rw [if_neg hm]
      simp only [List.nil_append, List.append_assoc, List.cons_append]
      obtain ⟨c, t, hct, hdig⟩ :=
        head_digit_cases _ hipne
          (fun c hc => hallp c (List.take_subset _ _ hc))
      rw [hct, List.cons_append, parseNum]
      rw [if_neg (by
        simp only [List.head?_cons, Option.some.injEq]
        intro hc
        exact digit_ne hdig '-' (by decide) hc)]
      rw [← List.cons_append, ← hct, parseNumBody_frac false _ e he rest h _ _ rfl rfl]
      exact dec_pair_eq _ _ _ _ (by rw [if_neg Bool.false_ne_true]; omega)

/-! ### Head-shape facts about rendered tokens -/

theorem replicate_digits (k mag : Nat) :
    ∀ c ∈ List.replicate k '0' ++ natDigits mag, isDigit c = true := by
  intro c hc
  rw [List.mem_append] at hc
  rcases hc with hc | hc
  · rw [List.mem_replicate] at hc
    rw [hc.2]; rfl
  · exact natDigits_all_digit _ c hc

theorem take_padded_ne_nil (mag e : Nat) (_he : e ≠ 0) :
    (List.replicate (max (natDigits mag).length (e + 1) - (natDigits mag).length) '0' ++
        natDigits mag).take (max (natDigits mag).length (e + 1) - e) ≠ [] := by
  intro hnil
  have h1 := congrArg List.length hnil
  rw [List.length_take] at h1
  simp only [List.length_nil, List.length_append, List.length_replicate] at h1
  have h2 := le_max_right (natDigits mag).length (e + 1)
  have h3 := le_max_left (natDigits mag).length (e + 1)
  omega

theorem renderNumChars_head (d : Dec) :
    ∃ c t, renderNumChars d = c :: t ∧ (c = '-' ∨ isDigit c = true) := by
  obtain ⟨m, e⟩ := d
  rw [renderNumChars]
  simp only
  by_cases he : e = 0
  · subst he
    rw [if_pos rfl]
    by_cases hm : m < 0
    · rw [if_pos hm]
      exact ⟨'-', natDigits m.natAbs, rfl, Or.inl rfl⟩
    · rw [if_neg hm]
      obtain ⟨c, t, hct, hd⟩ := head_digit_cases (natDigits m.natAbs)
        (natDigits_ne_nil _) (natDigits_all_digit _)
      exact ⟨c, t, by rw [List.nil_append, hct], Or.inr hd⟩
  · rw [if_neg he]
    by_cases hm : m < 0
    · rw [if_pos hm]
      exact ⟨'-', _, rfl, Or.inl rfl⟩
    · rw [if_neg hm]
      obtain ⟨c, t, hct, hd⟩ := head_digit_cases _ (take_padded_ne_nil m.natAbs e he)
        (fun c hc => replicate_digits _ _ c (List.take_subset _ _ hc))
      refine ⟨c,
        t ++ '.' ::
          (List.replicate (max (natDigits m.natAbs).length (e + 1) -
              (natDigits m.natAbs).length) '0' ++ natDigits m.natAbs).drop
            (max (natDigits m.natAbs).length (e + 1) - e),
        ?_, Or.inr hd⟩
      rw [List.nil_append, hct]
      rfl

/-- Every rendered value starts with a nonblank character that is not a
closing delimiter. -/
theorem renderVal_head (ind : Nat) (v : Json) :
    ∃ c t, renderVal ind v = c :: t ∧ isWsChar c = false ∧ c ≠ ']' ∧ c ≠ '\x7d' := by
  cases v with
  | null => exact ⟨'n', _, rfl, by decide, by decide, by decide⟩
  | bool b =>
    cases b with
    | true => exact ⟨'t', _, by rw [renderVal, if_pos rfl], by decide, by decide, by decide⟩
    | false =>
      exact ⟨'f', _, by rw [renderVal, if_neg Bool.false_ne_true], by decide, by decide,
        by decide⟩
  | num d =>
    obtain ⟨c, t, hct, hd⟩ := renderNumChars_head d
    refine ⟨c, t, by rw [renderVal, hct], ?_, ?_, ?_⟩
    · rcases hd with rfl | hd
      · decide
      · exact isWsChar_false_of_digit hd
    · rcases hd with rfl | hd
      · decide
      · exact digit_ne hd ']' (by decide)
    · rcases hd with rfl | hd
      · decide
      · exact digit_ne hd '\x7d' (by decide)
  | str s => exact ⟨'"', _, rfl, by decide, by decide, by decide⟩
  | arr l =>
    cases l with
    | nil => exact ⟨'[', _, rfl, by decide, by decide, by decide⟩
    | cons x xs => exact ⟨'[', _, rfl, by decide, by decide, by decide⟩
  | obj fs =>
    cases fs with
    | fnil => exact ⟨'\x7b', _, rfl, by decide, by decide, by decide⟩
    | fcons k v gs => exact ⟨'\x7b', _, rfl, by decide, by decide, by decide⟩

/-! ### The parser ignores leading whitespace -/

theorem parseVal_skipWs (fuel : Nat) (cs : List Char) :
    parseVal fuel (skipWs cs) = parseVal fuel cs := by
  cases fuel with
  | zero => rfl
  | succ f =>
    rw [parseVal, parseVal, skipWs_idem]

theorem parseElems_skipWs (fuel : Nat) (cs : List Char) :
    parseElems fuel (skipWs cs) = parseElems fuel cs := by
  cases fuel with
  | zero => rfl
  | succ f =>
    rw [parseElems, parseElems, parseVal_skipWs]

theorem parseFields_skipWs (fuel : Nat) (cs : List Char) :
    parseFields fuel (skipWs cs) = parseFields fuel cs := by
  cases fuel with
  | zero => rfl
  | succ f =>
    rw [parseFields, parseFields, skipWs_idem]

theorem allWs_append {a b : List Char} (ha : allWs a) (hb : allWs b) :
    allWs (a ++ b) := by
  intro c hc
  rw [List.mem_append] at hc
  rcases hc with hc | hc
  · exact ha c hc
  · exact hb c hc

theorem allWs_nl : allWs ['\n'] := by
  intro c hc
  simp only [List.mem_singleton] at hc
  subst hc; rfl

theorem allWs_sp : allWs [' '] := by
  intro c hc
  simp only [List.mem_singleton] at hc
  subst hc; rfl

theorem numDelim_cons (c : Char) (t : List Char) (h1 : isDigit c = false)
    (h2 : c ≠ '.') (h3 : c ≠ 'e') (h4 : c ≠ 'E') : numDelim (c :: t) := by
  intro c' hc'
  simp only [List.head?_cons, Option.some.injEq] at hc'
  subst hc'
  exact ⟨h1, h2, h3, h4⟩

theorem escChars_length_ge (l : List Char) : l.length ≤ (escChars l).length := by
  induction l with
  | nil => exact Nat.le_refl 0
  | cons c cs ih =>
    show (c :: cs).length ≤ (escapeChar c ++ escChars cs).length
    rw [List.length_append, List.length_cons]
    have : 1 ≤ (escapeChar c).length := by
      rw [escapeChar]
      repeat' split
      all_goals simp
    omega

theorem sizeJ_pos (v : Json) : 1 ≤ sizeJ v := by
  cases v <;> simp [sizeJ]

theorem sizeL_pos (l : JsonList) : 1 ≤ sizeL l := by
  cases l <;> simp [sizeL]

theorem sizeF_pos (f : JsonFields) : 1 ≤ sizeF f := by
  cases f <;> simp [sizeF]

theorem renderElems_nil (ind : Nat) : renderElems ind .nil = [] := by
  rw [renderElems.eq_def]

theorem renderElems_cons (ind : Nat) (x : Json) (xs : JsonList) :
    renderElems ind (.cons x xs) =
      nSpaces ind ++
        (renderVal ind x ++
          ((match xs with | .nil => [] | .cons _ _ => [',', '\n']) ++
            renderElems ind xs)) := by
  rw [renderElems.eq_def]

theorem renderFields_fnil (ind : Nat) : renderFields ind .fnil = [] := by
  rw [renderFields.eq_def]

theorem renderFields_fcons (ind : Nat) (k : String) (v : Json) (fs : JsonFields) :
    renderFields ind (.fcons k v fs) =
      nSpaces ind ++
        (renderStrChars k ++ ':' :: ' ' ::
          (renderVal ind v ++
            ((match fs with | .fnil => [] | .fcons _ _ _ => [',', '\n']) ++
              renderFields ind fs))) := by
  rw [renderFields.eq_def]

/-! ### The printer-parser round trip -/

theorem parse_render_fuel : ∀ fuel,
    (∀ v, sizeJ v ≤ fuel → ∀ ind pre rest, allWs pre → numDelim rest →
      parseVal fuel (pre ++ (renderVal ind v ++ rest)) = some (v, rest)) ∧
    (∀ x xs, sizeL (.cons x xs) ≤ fuel → ∀ ind j pre rest, allWs pre →
      parseElems fuel
        (pre ++ (renderElems ind (.cons x xs) ++ '\n' :: (nSpaces j ++ (']' :: rest)))) =
        some (.cons x xs, rest)) ∧
    (∀ k v fs, sizeF (.fcons k v fs) ≤ fuel → ∀ ind j pre rest, allWs pre →
      parseFields fuel
        (pre ++ (renderFields ind (.fcons k v fs) ++
          '\n' :: (nSpaces j ++ ('\x7d' :: rest)))) =
        some (.fcons k v fs, rest)) := by
  intro fuel
  induction fuel with
  | zero =>
    refine ⟨?_, ?_, ?_⟩
    · intro v hsz
      have := sizeJ_pos v
      omega
    · intro x xs hsz
      have := sizeL_pos (.cons x xs)
      omega
    · intro k v fs hsz
      have := sizeF_pos (.fcons k v fs)
      omega
  | succ f ih =>
    obtain ⟨ihV, ihE, ihF⟩ := ih
    refine ⟨?_, ?_, ?_⟩
    · -- values
      intro v hsz ind pre rest hpre hrest
      rw [parseVal, skipWs_append_ws hpre]
      cases v with
      | null =>
        rw [renderVal]
        simp only [List.cons_append, List.nil_append]
        rw [skipWs_cons_not _ (by decide)]
        simp [stripPrefixChars]
      | bool b =>
        cases b with
        | true =>
          rw [renderVal, if_pos rfl]
          simp only [List.cons_append, List.nil_append]
          rw [skipWs_cons_not _ (by decide)]
          simp [stripPrefixChars]
        | false =>
          rw [renderVal, if_neg Bool.false_ne_true]
          simp only [List.cons_append, List.nil_append]
          rw [skipWs_cons_not _ (by decide)]
          simp [stripPrefixChars]
      | num d =>
        obtain ⟨c, t, hct, hd⟩ := renderNumChars_head d
        have hws : isWsChar c = false := by
          rcases hd with rfl | hd
          · decide
          · exact isWsChar_false_of_digit hd
        have hn1 : ¬ c = '\x7b' := by
          rcases hd with rfl | hd
          · decide
          · exact digit_ne hd _ (by decide)
        have hn2 : ¬ c = '[' := by
          rcases hd with rfl | hd
          · decide
          · exact digit_ne hd _ (by decide)
        have hn3 : ¬ c = '"' := by
          rcases hd with rfl | hd
          · decide
          · exact digit_ne hd _ (by decide)
        have hn4 : ¬ c = 'n' := by
          rcases hd with rfl | hd
          · decide
          · exact digit_ne hd _ (by decide)
        have hn5 : ¬ c = 't' := by
          rcases hd with rfl | hd
          · decide
          · exact digit_ne hd _ (by decide)
        have hn6 : ¬ c = 'f' := by
          rcases hd with rfl | hd
          · decide
          · exact digit_ne hd _ (by decide)
        rw [renderVal, hct, List.cons_append, skipWs_cons_not _ hws]
        simp only [if_neg hn1, if_neg hn2, if_neg hn3, if_neg hn4, if_neg hn5, if_neg hn6]
        rw [← List.cons_append, ← hct, parseNum_render d rest hrest]
        rfl
      | str s =>
        rw [renderVal, renderStrChars]
        simp only [List.cons_append, List.append_assoc, List.singleton_append,
          List.nil_append]
        rw [skipWs_cons_not _ (by decide)]
        have hbound : s.data.length <
            (escChars s.data ++ '"' :: rest).length + 1 := by
          rw [List.length_append]
          have := escChars_length_ge s.data
          omega
        have hps : parseStrBody ((escChars s.data).length + (rest.length + 1) + 1)
            (escChars s.data ++ '"' :: rest) = some (s.data, rest) :=
          parseStrBody_esc s.data _ rest
            (by have := escChars_length_ge s.data; omega)
        simp [hps]
      | arr l =>
        cases l with
        | nil =>
          rw [renderVal]
          simp only [List.cons_append, List.nil_append]
          rw [skipWs_cons_not _ (by decide)]
          have h1 : skipWs (']' :: rest) = ']' :: rest := skipWs_cons_not _ (by decide)
          simp [h1]
        | cons x xs =>
          have hszL : sizeL (.cons x xs) ≤ f := by
            simp only [sizeJ] at hsz
            omega
          rw [renderVal]
          simp only [List.cons_append, List.append_assoc, List.nil_append,
            List.singleton_append]
          rw [skipWs_cons_not _ (by decide)]
          have hpe : parseElems f (skipWs ('\n' :: (renderElems (ind + 2) (.cons x xs) ++
              ('\n' :: (nSpaces ind ++ (']' :: rest)))))) = some (.cons x xs, rest) := by
            rw [parseElems_skipWs]
            have h0 := ihE x xs hszL (ind + 2) ind ['\n'] rest allWs_nl
            simpa [List.append_assoc] using h0
          have hcond : ¬ ((skipWs ('\n' :: (renderElems (ind + 2) (.cons x xs) ++
              ('\n' :: (nSpaces ind ++ (']' :: rest)))))).head? = some ']') := by
            obtain ⟨c1, t1, hct1, hws1, hne1, hne2⟩ := renderVal_head (ind + 2) x
            rw [skipWs_cons_ws _ (by decide), renderElems_cons, List.append_assoc,
              List.append_assoc, skipWs_append_ws (allWs_nSpaces _), hct1,
              List.cons_append, skipWs_cons_not _ hws1]
            simp only [List.head?_cons, Option.some.injEq]
            exact hne1
          simp only [if_neg hcond, hpe]
          rfl
      | obj fs =>
        cases fs with
        | fnil =>
          rw [renderVal]
          simp only [List.cons_append, List.nil_append]
          rw [skipWs_cons_not _ (by decide)]
          have h1 : skipWs ('\x7d' :: rest) = '\x7d' :: rest :=
            skipWs_cons_not _ (by decide)
          simp [h1]
        | fcons k v gs =>
          have hszF : sizeF (.fcons k v gs) ≤ f := by
            simp only [sizeJ] at hsz
            omega
          rw [renderVal]
          simp only [List.cons_append, List.append_assoc, List.nil_append,
            List.singleton_append]
          rw [skipWs_cons_not _ (by decide)]
          have hpf : parseFields f (skipWs ('\n' :: (renderFields (ind + 2) (.fcons k v gs) ++
              ('\n' :: (nSpaces ind ++ ('\x7d' :: rest)))))) =
              some (.fcons k v gs, rest) := by
            rw [parseFields_skipWs]
            have h0 := ihF k v gs hszF (ind + 2) ind ['\n'] rest allWs_nl
            simpa [List.append_assoc] using h0
          have hcond : ¬ ((skipWs ('\n' :: (renderFields (ind + 2) (.fcons k v gs) ++
              ('\n' :: (nSpaces ind ++ ('\x7d' :: rest)))))).head? = some '\x7d') := by
            rw [skipWs_cons_ws _ (by decide), renderFields_fcons, renderStrChars]
            simp only [List.append_assoc, List.cons_append]
            rw [skipWs_append_ws (allWs_nSpaces _), skipWs_cons_not _ (by decide)]
            simp only [List.head?_cons, Option.some.injEq]
            decide
          simp only [if_neg hcond, hpf]
          rfl
    · -- array elements
      intro x xs hsz ind j pre rest hpre
      rw [parseElems]
      have hszx : sizeJ x ≤ f := by
        simp only [sizeL] at hsz
        have := sizeL_pos xs
        omega
      cases xs with
      | nil =>
        have hv := ihV x hszx ind (pre ++ nSpaces ind)
          ('\n' :: (nSpaces j ++ (']' :: rest)))
          (allWs_append hpre (allWs_nSpaces ind))
          (numDelim_cons _ _ (by decide) (by decide) (by decide) (by decide))
        rw [renderElems_cons, renderElems_nil]
        simp only [List.append_assoc, List.append_nil, List.nil_append]
        simp only [List.append_assoc] at hv
        rw [hv]
        have hr2 : skipWs ('\n' :: (nSpaces j ++ (']' :: rest))) = ']' :: rest := by
          rw [skipWs_cons_ws _ (by decide), skipWs_append_ws (allWs_nSpaces _),
            skipWs_cons_not _ (by decide)]
        simp [hr2]
      | cons y ys =>
        have hszL : sizeL (.cons y ys) ≤ f := by
          simp only [sizeL] at hsz ⊢
          have := sizeJ_pos x
          omega
        have hv := ihV x hszx ind (pre ++ nSpaces ind)
          (',' :: ('\n' :: (renderElems ind (.cons y ys) ++
            ('\n' :: (nSpaces j ++ (']' :: rest))))))
          (allWs_append hpre (allWs_nSpaces ind))
          (numDelim_cons _ _ (by decide) (by decide) (by decide) (by decide))
        rw [renderElems_cons]
        simp only [List.append_assoc, List.cons_append, List.nil_append]
        simp only [List.append_assoc] at hv
        rw [hv]
        have hr2 : skipWs (',' :: ('\n' :: (renderElems ind (.cons y ys) ++
            ('\n' :: (nSpaces j ++ (']' :: rest)))))) =
            ',' :: ('\n' :: (renderElems ind (.cons y ys) ++
              ('\n' :: (nSpaces j ++ (']' :: rest))))) :=
          skipWs_cons_not _ (by decide)
        simp only [hr2, List.head?_cons, List.tail_cons, if_pos]
        have he := ihE y ys hszL ind j ['\n'] rest allWs_nl
        simp only [List.append_assoc, List.singleton_append] at he
        rw [he]
        rfl
    · -- object fields
      intro k v fs hsz ind j pre rest hpre
      rw [parseFields]
      have hszv : sizeJ v ≤ f := by
        simp only [sizeF] at hsz
        have := sizeF_pos fs
        omega
      cases fs with
      | fnil =>
        rw [renderFields_fcons, renderFields_fnil, renderStrChars]
        simp only [List.append_assoc, List.append_nil, List.nil_append,
          List.cons_append, List.singleton_append]
        rw [skipWs_append_ws hpre, skipWs_append_ws (allWs_nSpaces _),
          skipWs_cons_not _ (by decide)]
        have hbound : k.data.length <
            (escChars k.data ++ '"' :: (':' :: (' ' :: (renderVal ind v ++
              ('\n' :: (nSpaces j ++ ('\x7d' :: rest))))))).length + 1 := by
          rw [List.length_append]
          have := escChars_length_ge k.data
          omega
        simp only [parseStrBody_esc k.data _ _ hbound]
        have hv := ihV v hszv ind [' ']
          ('\n' :: (nSpaces j ++ ('\x7d' :: rest)))
          allWs_sp
          (numDelim_cons _ _ (by decide) (by decide) (by decide) (by decide))
        simp only [List.singleton_append] at hv
        have hr1 : skipWs (':' :: (' ' :: (renderVal ind v ++
            ('\n' :: (nSpaces j ++ ('\x7d' :: rest)))))) =
            ':' :: (' ' :: (renderVal ind v ++
              ('\n' :: (nSpaces j ++ ('\x7d' :: rest))))) :=
          skipWs_cons_not _ (by decide)
        simp only [hr1, List.head?_cons, List.tail_cons, if_pos]
        rw [hv]
        have hr4 : skipWs ('\n' :: (nSpaces j ++ ('\x7d' :: rest))) = '\x7d' :: rest := by
          rw [skipWs_cons_ws _ (by decide), skipWs_append_ws (allWs_nSpaces _),
            skipWs_cons_not _ (by decide)]
        simp [hr4]
      | fcons k2 v2 gs =>
        have hszF : sizeF (.fcons k2 v2 gs) ≤ f := by
          simp only [sizeF] at hsz ⊢
          have := sizeJ_pos v
          omega
        rw [renderFields_fcons, renderStrChars]
        simp only [List.append_assoc, List.nil_append,
          List.cons_append, List.singleton_append]
        rw [skipWs_append_ws hpre, skipWs_append_ws (allWs_nSpaces _),
          skipWs_cons_not _ (by decide)]
        have hbound : k.data.length <
            (escChars k.data ++ '"' :: (':' :: (' ' :: (renderVal ind v ++
              (',' :: ('\n' :: (renderFields ind (.fcons k2 v2 gs) ++
                ('\n' :: (nSpaces j ++ ('\x7d' :: rest)))))))))).length + 1 := by
          rw [List.length_append]
          have := escChars_length_ge k.data
          omega
        simp only [parseStrBody_esc k.data _ _ hbound]
        have hv := ihV v hszv ind [' ']
          (',' :: ('\n' :: (renderFields ind (.fcons k2 v2 gs) ++
            ('\n' :: (nSpaces j ++ ('\x7d' :: rest))))))
          allWs_sp
          (numDelim_cons _ _ (by decide) (by decide) (by decide) (by decide))
        simp only [List.singleton_append] at hv
        have hr1 : skipWs (':' :: (' ' :: (renderVal ind v ++
            (',' :: ('\n' :: (renderFields ind (.fcons k2 v2 gs) ++
              ('\n' :: (nSpaces j ++ ('\x7d' :: rest))))))))) =
            ':' :: (' ' :: (renderVal ind v ++
              (',' :: ('\n' :: (renderFields ind (.fcons k2 v2 gs) ++
                ('\n' :: (nSpaces j ++ ('\x7d' :: rest)))))))) :=
          skipWs_cons_not _ (by decide)
        simp only [hr1, List.head?_cons, List.tail_cons, if_pos]
        rw [hv]
        have hr4 : skipWs (',' :: ('\n' :: (renderFields ind (.fcons k2 v2 gs) ++
            ('\n' :: (nSpaces j ++ ('\x7d' :: rest)))))) =
            ',' :: ('\n' :: (renderFields ind (.fcons k2 v2 gs) ++
              ('\n' :: (nSpaces j ++ ('\x7d' :: rest))))) :=
          skipWs_cons_not _ (by decide)
        simp only [hr4, List.head?_cons, List.tail_cons, if_pos]
        have hf2 := ihF k2 v2 gs hszF ind j ['\n'] rest allWs_nl
        simp only [List.append_assoc, List.singleton_append] at hf2
        rw [hf2]
        rfl

theorem size_le_render_aux : ∀ n,
    (∀ v, sizeJ v ≤ n → ∀ ind, sizeJ v ≤ (renderVal ind v).length) ∧
    (∀ l, sizeL l ≤ n → ∀ ind, sizeL l ≤ (renderElems (ind + 2) l).length + 1) ∧
    (∀ fs, sizeF fs ≤ n → ∀ ind, sizeF fs ≤ (renderFields (ind + 2) fs).length + 1) := by
  intro n
  induction n with
  | zero =>
    refine ⟨?_, ?_, ?_⟩
    · intro v hsz
      have := sizeJ_pos v
      omega
    · intro l hsz
      have := sizeL_pos l
      omega
    · intro fs hsz
      have := sizeF_pos fs
      omega
  | succ m ih =>
    obtain ⟨ihV, ihL, ihF⟩ := ih
    refine ⟨?_, ?_, ?_⟩
    · intro v hsz ind
      cases v with
      | null => simp [sizeJ, renderVal]
      | bool b => cases b <;> simp [sizeJ, renderVal]
      | num d =>
        obtain ⟨c, t, hct, _⟩ := renderNumChars_head d
        simp [sizeJ, renderVal, hct]
      | str s => simp [sizeJ, renderVal, renderStrChars]
      | arr l =>
        cases l with
        | nil => simp [sizeJ, sizeL, renderVal]
        | cons x xs =>
          have h := ihL (.cons x xs) (by simp [sizeJ] at hsz; omega) ind
          rw [renderVal]
          simp only [sizeJ, List.length_cons, List.length_append, nSpaces,
            List.length_replicate, List.length_singleton]
          omega
      | obj fs =>
        cases fs with
        | fnil => simp [sizeJ, sizeF, renderVal]
        | fcons k v gs =>
          have h := ihF (.fcons k v gs) (by simp [sizeJ] at hsz; omega) ind
          rw [renderVal]
          simp only [sizeJ, List.length_cons, List.length_append, nSpaces,
            List.length_replicate, List.length_singleton]
          omega
    · intro l hsz ind
      cases l with
      | nil => simp [sizeL, renderElems_nil]
      | cons x xs =>
        have hx : sizeJ x ≤ m := by
          simp only [sizeL] at hsz
          have := sizeL_pos xs
          omega
        have hxs : sizeL xs ≤ m := by
          simp only [sizeL] at hsz
          have := sizeJ_pos x
          omega
        have h1 := ihV x hx (ind + 2)
        rw [renderElems_cons]
        simp only [sizeL, List.length_append, nSpaces, List.length_replicate]
        cases xs with
        | nil =>
          simp only [sizeL, renderElems_nil, List.length_nil]
          omega
        | cons y ys =>
          have h2 := ihL (.cons y ys) hxs ind
          simp only [List.length_cons, List.length_nil]
          omega
    · intro fs hsz ind
      cases fs with
      | fnil => simp [sizeF, renderFields_fnil]
      | fcons k v gs =>
        have hv : sizeJ v ≤ m := by
          simp only [sizeF] at hsz
          have := sizeF_pos gs
          omega
        have hgs : sizeF gs ≤ m := by
          simp only [sizeF] at hsz
          have := sizeJ_pos v
          omega
        have h1 := ihV v hv (ind + 2)
        rw [renderFields_fcons]
        simp only [sizeF, List.length_append, List.length_cons, nSpaces,
          List.length_replicate]
        cases gs with
        | fnil =>
          simp only [sizeF, renderFields_fnil, List.length_nil]
          omega
        | fcons k2 v2 gs2 =>
          have h2 := ihF (.fcons k2 v2 gs2) hgs ind
          simp only [List.length_cons, List.length_nil]
          omega

theorem sizeJ_le_renderLen (v : Json) (ind : Nat) :
    sizeJ v ≤ (renderVal ind v).length :=
  (size_le_render_aux (sizeJ v)).1 v (Nat.le_refl _) ind

/-- JSON.parse is a left inverse of JSON.stringify(·, null, 2): exporting
any document and re-importing the text reproduces the document exactly. -/
theorem jsonRoundtrip (v : Json) : parseJsonText (renderPretty v) = some v := by
  rw [parseJsonText]
  have hdata : (renderPretty v).data = renderVal 0 v := rfl
  rw [hdata]
  have h := (parse_render_fuel ((renderVal 0 v).length + 1)).1 v
    (by have := sizeJ_le_renderLen v 0; omega) 0 [] [] allWs_nil numDelim_nil
  simp only [List.nil_append, List.append_nil] at h
  rw [h]
  rfl

/-! ### Structured document model

The shape of a pdfme template document as the handlers in main.ts read and
write it: a base-document object carrying the padding array, and an
ordered list of schema pages, each an insertion-ordered association of
field names to elements.  An element carries the properties the code
touches (type, content, position) plus size, standing for the remaining
scalar attributes.  A padding entry is `none` when the stored value is
NaN (which JSON.stringify serializes as null). -/

structure Position where
  x : Dec
  y : Dec
deriving DecidableEq, Repr

structure Element where
  type : String
  content : String
  position : Position
  width : Dec
  height : Dec
deriving DecidableEq, Repr

abbrev Page := List (String × Element)

structure BasePdf where
  padding : List (Option Dec)
deriving DecidableEq, Repr

structure Doc where
  basePdf : BasePdf
  schemas : List Page
deriving DecidableEq, Repr

/-! ### JSON representation of documents -/

def decJson : Option Dec → Json
  | some v => .num v
  | none => .null

def posToJson (p : Position) : Json :=
  .obj (.fcons "x" (.num p.x) (.fcons "y" (.num p.y) .fnil))

def elToJson (el : Element) : Json :=
  .obj (.fcons "type" (.str el.type)
    (.fcons "content" (.str el.content)
      (.fcons "position" (posToJson el.position)
        (.fcons "width" (.num el.width)
          (.fcons "height" (.num el.height) .fnil)))))

def pageToJson : Page → JsonFields
  | [] => .fnil
  | (k, el) :: rest => .fcons k (elToJson el) (pageToJson rest)

def schemasToJson : List Page → JsonList
  | [] => .nil
  | p :: ps => .cons (.obj (pageToJson p)) (schemasToJson ps)

def paddingToJson : List (Option Dec) → JsonList
  | [] => .nil
  | d :: ds => .cons (decJson d) (paddingToJson ds)

def docToJson (d : Doc) : Json :=
  .obj (.fcons "basePdf"
      (.obj (.fcons "padding" (.arr (paddingToJson d.basePdf.padding)) .fnil))
    (.fcons "schemas" (.arr (schemasToJson d.schemas)) .fnil))

def decOfJson : Json → Option (Option Dec)
  | .num v => some (some v)
  | .null => some none
  | _ => none

def posOfJson : Json → Option Position
  | .obj (.fcons "x" (.num x) (.fcons "y" (.num y) .fnil)) => some ⟨x, y⟩
  | _ => none

def elOfJson : Json → Option Element
  | .obj (.fcons "type" (.str t) (.fcons "content" (.str c)
      (.fcons "position" pj (.fcons "width" (.num w)
        (.fcons "height" (.num h) .fnil))))) =>
    (posOfJson pj).map (fun p => ⟨t, c, p, w, h⟩)
  | _ => none

def pageOfJson : JsonFields → Option Page
  | .fnil => some []
  | .fcons k v rest =>
    match elOfJson v, pageOfJson rest with
    | some el, some pg => some ((k, el) :: pg)
    | _, _ => none

def paddingOfJson : JsonList → Option (List (Option Dec))
  | .nil => some []
  | .cons x xs =>
    match decOfJson x, paddingOfJson xs with
    | some d, some ds => some (d :: ds)
    | _, _ => none

def schemasOfJson : JsonList → Option (List Page)
  | .nil => some []
  | .cons (.obj fs) rest =>
    match pageOfJson fs, schemasOfJson rest with
    | some p, some ps => some (p :: ps)
    | _, _ => none
  | .cons _ _ => none

def docOfJson : Json → Option Doc
  | .obj (.fcons "basePdf" (.obj (.fcons "padding" (.arr pj) .fnil))
      (.fcons "schemas" (.arr sj) .fnil)) =>
    match paddingOfJson pj, schemasOfJson sj with
    | some pad, some ss => some ⟨⟨pad⟩, ss⟩
    | _, _ => none
  | _ => none

theorem elOfJson_elToJson (el : Element) : elOfJson (elToJson el) = some el := by
  obtain ⟨t, c, ⟨px, py⟩, w, h⟩ := el
  rfl

theorem pageOfJson_pageToJson (p : Page) : pageOfJson (pageToJson p) = some p := by
  induction p with
  | nil => rfl
  | cons kv rest ih =>
    obtain ⟨k, el⟩ := kv
    rw [pageToJson, pageOfJson, elOfJson_elToJson, ih]

theorem paddingOfJson_paddingToJson (pad : List (Option Dec)) :
    paddingOfJson (paddingToJson pad) = some pad := by
  induction pad with
  | nil => rfl
  | cons d ds ih =>
    rw [paddingToJson, paddingOfJson]
    cases d <;> rw [ih] <;> rfl

theorem schemasOfJson_schemasToJson (ss : List Page) :
    schemasOfJson (schemasToJson ss) = some ss := by
  induction ss with
  | nil => rfl
  | cons p ps ih =>
    rw [schemasToJson, schemasOfJson, pageOfJson_pageToJson, ih]

theorem docOfJson_docToJson (d : Doc) : docOfJson (docToJson d) = some d := by
  obtain ⟨⟨pad⟩, ss⟩ := d
  rw [docToJson, docOfJson, paddingOfJson_paddingToJson, schemasOfJson_schemasToJson]

/-- The serialize-then-parse snapshot of the live document
(JSON.parse(JSON.stringify(designer.getTemplate(), null, 2)), read back as
a document): src/src/main.ts:294-300 and 404. -/
def docRoundtrip (live : Doc) : Option Doc :=
  match parseJsonText (renderPretty (docToJson live)) with
  | some j => docOfJson j
  | none => none

/-- A serialize-then-parse snapshot is the identity on documents. -/
theorem docRoundtrip_id (live : Doc) : docRoundtrip live = some live := by
  rw [docRoundtrip, jsonRoundtrip]
  exact docOfJson_docToJson live

/-! ### Page and value-map primitives

JavaScript objects are modelled as insertion-ordered association lists.
A property read returns the first entry with the key; mutation through an
alias obtained from such a read updates that first entry in place. -/

def plookup : Page → String → Option Element
  | [], _ => none
  | (k', el) :: rest, k => if k' = k then some el else plookup rest k

def pmodify : Page → String → (Element → Element) → Page
  | [], _, _ => []
  | (k', el) :: rest, k, f =>
    if k' = k then (k', f el) :: rest else (k', el) :: pmodify rest k f

def pset (p : Page) (k : String) (el : Element) : Page := pmodify p k (fun _ => el)

/-- Property assignment on the inputs object (replace in place if the key
exists, append otherwise). -/
def upsert : List (String × String) → String → String → List (String × String)
  | [], k, v => [(k, v)]
  | (k', v') :: rest, k, v =>
    if k' = k then (k', v) :: rest else (k', v') :: upsert rest k v

def ilookup : List (String × String) → String → Option String
  | [], _ => none
  | (k', v) :: rest, k => if k' = k then some v else ilookup rest k

/-! ### main.ts constants and helpers -/

def PAGE_1_TABLE_ROWS_MAX : Nat := 4
def PAGE_2_TABLE_ROWS_MAX : Nat := 7

/-- Writing el.position.y. -/
def setY (el : Element) (y : Dec) : Element :=
  { el with position := { el.position with y := y } }

/-- src/src/main.ts:302-307: footerElements[0..3].position.y are set to
fromY, fromY+16, fromY+14, fromY+25. -/
def setFooterPositions (fromY : Dec) (footerElements : List Element) : List Element :=
  listModify (setY · (fromY + Dec.ofInt 25)) 3
    (listModify (setY · (fromY + Dec.ofInt 14)) 2
      (listModify (setY · (fromY + Dec.ofInt 16)) 1
        (listModify (setY · fromY) 0 footerElements)))

/-- src/src/main.ts:309-321: headerElements[0..10].position.y are set to
fromY plus 0, 10, 12.4, 5, 33, 35, 41, 55, 59, 59, 67. -/
def setHeaderPositions (fromY : Dec) (headerElements : List Element) : List Element :=
  listModify (setY · (fromY + Dec.ofInt 67)) 10
    (listModify (setY · (fromY + Dec.ofInt 59)) 9
      (listModify (setY · (fromY + Dec.ofInt 59)) 8
        (listModify (setY · (fromY + Dec.ofInt 55)) 7
          (listModify (setY · (fromY + Dec.ofInt 41)) 6
            (listModify (setY · (fromY + Dec.ofInt 35)) 5
              (listModify (setY · (fromY + Dec.ofInt 33)) 4
                (listModify (setY · (fromY + Dec.ofInt 5)) 3
                  (listModify (setY · (fromY + Dec.mk 124 1)) 2
                    (listModify (setY · (fromY + Dec.ofInt 10)) 1
                      (listModify (setY · fromY) 0 headerElements))))))))))

/-- src/src/main.ts:416-428: the 11 header elements, read by fixed key. -/
def headerKeys : List String :=
  ["header_rect", "logo", "header_rect_hr", "lunu_address", "header_title",
   "period_title", "period", "table_header_rect", "table_header_title",
   "table_period", "table"]

/-- src/src/main.ts:429-434: the 4 footer elements, read by fixed key. -/
def footerKeys : List String :=
  ["footer_el_1", "footer_el_2", "footer_el_3", "pages"]

/-- src/src/main.ts:407: the sample row. -/
def row : List String :=
  ["24 May, 2024\n202401:13:37 PM", "Payment link", "1.09 USD\n1.11 USDT",
   "-", "1.59 USD"]

/-- src/src/main.ts:408-412: 35 copies of the sample row (copyOBJ on an
immutable value is the identity, by jsonRoundtrip), each with column 3
overwritten by the row index as a string. -/
def tableData : List (List String) :=
  (List.range 35).map (fun i => row.set 3 (natStr i))

def strsToJson : List String → JsonList
  | [] => .nil
  | s :: ss => .cons (.str s) (strsToJson ss)

def rowsToJson : List (List String) → JsonList
  | [] => .nil
  | r :: rs => .cons (.arr (strsToJson r)) (rowsToJson rs)

/-- JSON.stringify of an array of rows of strings (compact form), as used
for the table values. -/
def stringifyRows (rows : List (List String)) : String :=
  renderComp (.arr (rowsToJson rows))

/-- A generated key such as page_2_header_el_11 (template literal with two
interpolated numbers). -/
def pageKey (n : Nat) (mid : String) (i : Nat) : String :=
  "page_" ++ natStr n ++ mid ++ natStr i

/-- Mutation of the original page-0 footer objects through the
footerElements aliases (src/src/main.ts:429-434 capture, 439/479 writes).
Only called with the four footer elements. -/
def writeFooters (p : Page) : List Element → Page
  | [f1, f2, f3, f4] =>
    pset (pset (pset (pset p "footer_el_1" f1) "footer_el_2" f2)
      "footer_el_3" f3) "pages" f4
  | _ => p

structure LoopState where
  rows : List (List String)
  schemas : List Page
  inputs : List (String × String)

/-- The additional schema page built by one loop iteration,
src/src/main.ts:446-464: the repositioned header copies keyed
page_{n}_header_el_{i+1}, the repositioned footer copies keyed
page_{n}_footer_el_{i+1}, and the hr-field copies keyed
page_{n}_table_hr_{i+1} with position.y set to 90.  The copies are
inserted into the page and then repositioned through the same references,
so the page holds the repositioned copies; copyOBJ (JSON round trip) is
the identity on immutable values. -/
def newPage (headerElements footerElements hrFields : List Element)
    (pageN : Nat) : Page :=
  (List.enum (setHeaderPositions (Dec.ofInt 10) headerElements)).map
    (fun p => (pageKey pageN "_header_el_" (p.1 + 1), p.2)) ++
  (List.enum (setFooterPositions (Dec.ofInt 215) footerElements)).map
    (fun p => (pageKey pageN "_footer_el_" (p.1 + 1), p.2)) ++
  (List.enum hrFields).map
    (fun p => (pageKey pageN "_table_hr_" (p.1 + 1), setY p.2 (Dec.ofInt 90)))

/-- One iteration of the additional-page loop, src/src/main.ts:443-475.
The hr fields were looked up once before the loop (their entries are not
touched by the footer mutation, so the values agree with the
per-iteration lookups of the source). -/
def pageBody (headerElements footerElements hrFields : List Element)
    (periodContent tablePeriodContent : String) (total : Nat)
    (st : LoopState) (pageI : Nat) : LoopState :=
  let nextTableData := st.rows.take PAGE_2_TABLE_ROWS_MAX
  let rows2 := st.rows.drop PAGE_2_TABLE_ROWS_MAX
  let pageN := pageI + 1
  let np := newPage headerElements footerElements hrFields pageN
  let ins1 := upsert st.inputs
    (pageKey pageN "_header_el_" (setHeaderPositions (Dec.ofInt 10) headerElements).length)
    (stringifyRows nextTableData)
  let ins2 := upsert ins1 (pageKey pageN "_header_el_" 7) periodContent
  let ins3 := upsert ins2 (pageKey pageN "_header_el_" 10) tablePeriodContent
  let ins4 := upsert ins3
    (pageKey pageN "_footer_el_" (setFooterPositions (Dec.ofInt 215) footerElements).length)
    ("Page " ++ natStr pageN ++ " of " ++ natStr total)
  { rows := rows2, schemas := jsArraySet st.schemas pageI np, inputs := ins4 }

/-- src/src/main.ts:483-490: for every text-typed field of the (by now
mutated) first page, copy its content into the value map under its key. -/
def textCopy (schema : Page) (inputs : List (String × String)) :
    List (String × String) :=
  schema.foldl
    (fun acc kv => if kv.2.type = "text" then upsert acc kv.1 kv.2.content else acc)
    inputs

structure GenOut where
  doc : Doc
  inputs : List (String × String)
deriving DecidableEq, Repr

/-- The pagination / field-fill routine of the generate-button handler,
src/src/main.ts:404-490, as a function of the sample table and the
snapshot document.  none models a thrown (and caught) exception: a missing
first schema page, or a missing named element forced by the branch taken.
The element lookups are gathered where the source captures them
(416-434); the hr-field and period lookups happen inside the loop in the
source, on entries the preceding footer mutation does not touch. -/
def generateRoutine (tbl : List (List String)) (doc0 : Doc) : Option GenOut :=
  match doc0.schemas.head? with
  | none => none
  | some schema =>
    if PAGE_1_TABLE_ROWS_MAX < tbl.length then
      match optSequence (headerKeys.map (plookup schema)),
            optSequence (footerKeys.map (plookup schema)),
            optSequence ((List.range 87).map
              (fun i => plookup schema ("field" ++ natStr (28 + i)))),
            plookup schema "period", plookup schema "table_period" with
      | some headerElements, some footerElements, some hrFields,
          some periodEl, some tablePeriodEl =>
        let ins0 := upsert [] "table"
          (stringifyRows (tbl.take PAGE_1_TABLE_ROWS_MAX))
        let rest := tbl.drop PAGE_1_TABLE_ROWS_MAX
        let ftrs1 := setFooterPositions
          (Dec.ofInt (277 - 21 * ((PAGE_1_TABLE_ROWS_MAX : Int) - 1))) footerElements
        let schema1 := writeFooters schema ftrs1
        let pagesLength :=
          (rest.length + PAGE_2_TABLE_ROWS_MAX - 1) / PAGE_2_TABLE_ROWS_MAX
        let st0 : LoopState := ⟨rest, jsArraySet doc0.schemas 0 schema1, ins0⟩
        let stF := (List.range' 1 pagesLength).foldl
          (pageBody headerElements ftrs1 hrFields periodEl.content
            tablePeriodEl.content (pagesLength + 1)) st0
        let pagesText := "Page 1 of " ++ natStr (pagesLength + 1)
        let schema2 := pmodify schema1 "pages"
          (fun el => { el with content := pagesText })
        let insF := upsert stF.inputs "pages" pagesText
        some ⟨{ doc0 with schemas := jsArraySet stF.schemas 0 schema2 },
          textCopy schema2 insF⟩
      | _, _, _, _, _ => none
    else
      match optSequence (footerKeys.map (plookup schema)) with
      | some footerElements =>
        let ins0 := upsert [] "table" (stringifyRows tbl)
        let ftrs1 := setFooterPositions
          (Dec.ofInt (277 - 21 * ((tbl.length : Int) - 1))) footerElements
        let schema1 := writeFooters schema ftrs1
        let ins1 := upsert ins0 "pages" "Page 1 of 1"
        some ⟨{ doc0 with schemas := jsArraySet doc0.schemas 0 schema1 },
          textCopy schema1 ins1⟩
      | none => none

/-- The generate-button click handler, src/src/main.ts:402-508: it takes a
serialize-then-parse snapshot of the live document, runs the routine on
the snapshot, and hands the expanded document and value map to the
external generator.  It never calls designer.updateTemplate, so the live
document is returned unchanged; a caught exception (none) also leaves it
unchanged. -/
def generateClick (live : Doc) : Doc × Option GenOut :=
  match docRoundtrip live with
  | none => (live, none)
  | some snap =>
    match generateRoutine tableData snap with
    | none => (live, none)
    | some out => (live, some out)

/-- The upload handler's reader.onload, src/src/main.ts:333-342: parse the
file text and replace the designer's document on success; on a parse
failure the error is only logged and the document is left unchanged. -/
def uploadOnLoad (text : String) (designerTemplate : Json) : Json :=
  match parseJsonText text with
  | some json => json
  | none => designerTemplate

/-- Number.parseFloat on the change-event value: optional sign, integer
digits, optional fraction; none models NaN.  (Exponents, which the number
inputs never produce, are omitted.) -/
def jsParseFloatAux (neg : Bool) (cs : List Char) : Option Dec :=
  let intDs := cs.takeWhile isDigit
  let cs2 := cs.dropWhile isDigit
  let fds := if cs2.head? = some '.' then cs2.tail.takeWhile isDigit else []
  if intDs = [] ∧ fds = [] then none
  else some ⟨(if neg then (-1 : Int) else 1) * digitsVal (intDs ++ fds), fds.length⟩

def jsParseFloat (s : String) : Option Dec :=
  let cs0 := skipWs s.data
  if cs0.head? = some '-' then jsParseFloatAux true cs0.tail
  else if cs0.head? = some '+' then jsParseFloatAux false cs0.tail
  else jsParseFloatAux false cs0

/-- The change handler of padding input i, src/src/main.ts:522-530:
re-read the live document through a serialize-then-parse round trip,
overwrite padding[i] with the parsed value, and push the document back
into the designer.  The handler has no try/catch: if the snapshot parse
threw, the document would be left unchanged. -/
def paddingChange (i : Nat) (value : String) (live : Doc) : Doc :=
  match docRoundtrip live with
  | some t => { t with basePdf := ⟨t.basePdf.padding.set i (jsParseFloat value)⟩ }
  | none => live

/-! ### Store, autosave and the designer change callback -/

structure AppState where
  designerTemplate : Doc
  storeTemplate : Option String
  storeAutosave : Option String
  autosaveChecked : Bool

/-- src/src/main.ts:294-296. -/
def getTemplateJSONString (st : AppState) : String :=
  renderPretty (docToJson st.designerTemplate)

/-- src/src/main.ts:290-292: write the serialized current document under
the template store key. -/
def saveTemplate (st : AppState) : AppState :=
  { st with storeTemplate := some (getTemplateJSONString st) }

/-- src/src/main.ts:391: autosaveInput.checked = !!localStorage.getItem("autosave"). -/
def initAutosave (st : AppState) : AppState :=
  { st with autosaveChecked := st.storeAutosave.isSome }

/-- src/src/main.ts:392-398: the autosave checkbox change handler. -/
def autosaveToggle (checked : Bool) (st : AppState) : AppState :=
  let st1 := { st with autosaveChecked := checked }
  if checked then { st1 with storeAutosave := some "true" }
  else { st1 with storeAutosave := none }

/-- A widget edit: the designer's document becomes t, then the
onChangeTemplate callback (src/src/main.ts:533-537) fires and saves
exactly when the autosave checkbox is checked. -/
def designerEdit (t : Doc) (st : AppState) : AppState :=
  let st1 := { st with designerTemplate := t }
  if st1.autosaveChecked then saveTemplate st1 else st1

/-! ### The chunk decomposition induced by the splice pattern -/

def chunk7 : Nat → List (List String) → List (List (List String))
  | 0, _ => []
  | n + 1, rows =>
    rows.take PAGE_2_TABLE_ROWS_MAX :: chunk7 n (rows.drop PAGE_2_TABLE_ROWS_MAX)

/-- The successive chunks the generate routine assigns to pages: the first
splice of 4 rows (src/src/main.ts:438), then one splice of at most 7 rows
per additional page (444), the loop running ceil(remaining/7) times
(441-443); a table of at most 4 rows stays whole (478). -/
def pageChunks (td : List (List String)) : List (List (List String)) :=
  if PAGE_1_TABLE_ROWS_MAX < td.length then
    td.take PAGE_1_TABLE_ROWS_MAX ::
      chunk7 (((td.drop PAGE_1_TABLE_ROWS_MAX).length + PAGE_2_TABLE_ROWS_MAX - 1) /
          PAGE_2_TABLE_ROWS_MAX)
        (td.drop PAGE_1_TABLE_ROWS_MAX)
  else [td]

/-! ### Small evaluation lemmas -/

theorem natStr1 : natStr 1 = "1" := rfl
theorem natStr2 : natStr 2 = "2" := rfl
theorem natStr3 : natStr 3 = "3" := rfl
theorem natStr4 : natStr 4 = "4" := rfl
theorem natStr5 : natStr 5 = "5" := rfl
theorem natStr6 : natStr 6 = "6" := rfl
theorem natStr7 : natStr 7 = "7" := rfl
theorem natStr10 : natStr 10 = "10" := rfl
theorem natStr11 : natStr 11 = "11" := rfl

theorem Dec.add_eq (a b : Dec) : a + b = Dec.add a b := rfl

theorem setY_setY (el : Element) (a b : Dec) : setY (setY el a) b = setY el b := rfl

theorem setY_type (el : Element) (y : Dec) : (setY el y).type = el.type := rfl

theorem setY_content (el : Element) (y : Dec) : (setY el y).content = el.content := rfl

/-! ### First-occurrence association-list lemmas -/

theorem ilookup_upsert_self (m : List (String × String)) (k v : String) :
    ilookup (upsert m k v) k = some v := by
  induction m with
  | nil => simp [upsert, ilookup]
  | cons kv rest ih =>
    obtain ⟨k', v'⟩ := kv
    by_cases h : k' = k
    · subst h; simp [upsert, ilookup]
    · simp [upsert, ilookup, h, ih]

theorem ilookup_upsert_ne (m : List (String × String)) (k v q : String)
    (h : q ≠ k) : ilookup (upsert m k v) q = ilookup m q := by
  induction m with
  | nil =>
    simp only [upsert, ilookup]
    rw [if_neg (fun hh => h hh.symm)]
  | cons kv rest ih =>
    obtain ⟨k', v'⟩ := kv
    by_cases hk : k' = k
    · subst hk
      simp only [upsert, if_pos rfl, ilookup]
      rw [if_neg (fun hh => h hh.symm), if_neg (fun hh => h hh.symm)]
    · simp only [upsert, if_neg hk, ilookup, ih]

theorem plookup_mem_of_some (p : Page) (k : String) (e : Element)
    (h : plookup p k = some e) : k ∈ p.map Prod.fst := by
  induction p with
  | nil => simp [plookup] at h
  | cons kv rest ih =>
    obtain ⟨k', el⟩ := kv
    by_cases hk : k' = k
    · subst hk; simp
    · rw [plookup, if_neg hk] at h
      simpa using Or.inr (ih h)

theorem plookup_none_of_not_mem (p : Page) (k : String)
    (h : k ∉ p.map Prod.fst) : plookup p k = none := by
  induction p with
  | nil => rfl
  | cons kv rest ih =>
    obtain ⟨k', el⟩ := kv
    simp only [List.map, List.mem_cons, not_or] at h
    rw [plookup, if_neg (fun hh => h.1 hh.symm), ih h.2]

theorem keys_pmodify (p : Page) (k : String) (f : Element → Element) :
    (pmodify p k f).map Prod.fst = p.map Prod.fst := by
  induction p with
  | nil => rfl
  | cons kv rest ih =>
    obtain ⟨k', el⟩ := kv
    by_cases hk : k' = k
    · rw [pmodify, if_pos hk]; rfl
    · rw [pmodify, if_neg hk]
      simp [ih]

theorem plookup_pmodify_self (p : Page) (k : String) (f : Element → Element)
    (e : Element) (h : plookup p k = some e) :
    plookup (pmodify p k f) k = some (f e) := by
  induction p with
  | nil => simp [plookup] at h
  | cons kv rest ih =>
    obtain ⟨k', el⟩ := kv
    by_cases hk : k' = k
    · rw [plookup, if_pos hk] at h
      rw [pmodify, if_pos hk, plookup, if_pos hk]
      cases h; rfl
    · rw [plookup, if_neg hk] at h
      rw [pmodify, if_neg hk, plookup, if_neg hk]
      exact ih h

theorem plookup_pmodify_ne (p : Page) (k : String) (f : Element → Element)
    (q : String) (h : q ≠ k) : plookup (pmodify p k f) q = plookup p q := by
  induction p with
  | nil => rfl
  | cons kv rest ih =>
    obtain ⟨k', el⟩ := kv
    by_cases hk : k' = k
    · rw [pmodify, if_pos hk, plookup, plookup,
        if_neg (fun hh : k' = q => h (hk ▸ hh ▸ rfl)),
        if_neg (fun hh : k' = q => h (hk ▸ hh ▸ rfl))]
    · rw [pmodify, if_neg hk, plookup, plookup]
      by_cases hq : k' = q
      · rw [if_pos hq, if_pos hq]
      · rw [if_neg hq, if_neg hq, ih]

theorem plookup_pset_self (p : Page) (k : String) (e0 e : Element)
    (h : plookup p k = some e0) : plookup (pset p k e) k = some e :=
  plookup_pmodify_self p k (fun _ => e) e0 h

theorem plookup_pset_ne (p : Page) (k : String) (e : Element) (q : String)
    (h : q ≠ k) : plookup (pset p k e) q = plookup p q :=
  plookup_pmodify_ne p k (fun _ => e) q h

theorem keys_pset (p : Page) (k : String) (e : Element) :
    (pset p k e).map Prod.fst = p.map Prod.fst :=
  keys_pmodify p k (fun _ => e)

/-! ### Lemmas about the text-field copy loop -/

theorem textCopy_cons (k' : String) (el : Element) (rest : Page)
    (ins : List (String × String)) :
    textCopy ((k', el) :: rest) ins =
      textCopy rest (if el.type = "text" then upsert ins k' el.content else ins) :=
  rfl

theorem textCopy_not_mem (p : Page) (ins : List (String × String)) (q : String)
    (h : q ∉ p.map Prod.fst) :
    ilookup (textCopy p ins) q = ilookup ins q := by
  induction p generalizing ins with
  | nil => rfl
  | cons kv rest ih =>
    obtain ⟨k', el⟩ := kv
    simp only [List.map, List.mem_cons, not_or] at h
    rw [textCopy_cons]
    by_cases ht : el.type = "text"
    · rw [if_pos ht, ih _ h.2, ilookup_upsert_ne _ _ _ _ (fun hh => h.1 hh)]
    · rw [if_neg ht]
      exact ih _ h.2

theorem textCopy_text (p : Page) (ins : List (String × String)) (q : String)
    (e : Element) (hnod : (p.map Prod.fst).Nodup)
    (h : plookup p q = some e) (ht : e.type = "text") :
    ilookup (textCopy p ins) q = some e.content := by
  induction p generalizing ins with
  | nil => simp [plookup] at h
  | cons kv rest ih =>
    obtain ⟨k', el⟩ := kv
    simp only [List.map, List.nodup_cons] at hnod
    rw [textCopy_cons]
    by_cases hk : k' = q
    · rw [plookup, if_pos hk] at h
      cases h
      rw [if_pos ht]
      have hrest : q ∉ rest.map Prod.fst := hk ▸ hnod.1
      rw [textCopy_not_mem rest _ q hrest]
      subst hk
      exact ilookup_upsert_self ins k' e.content
    · rw [plookup, if_neg hk] at h
      by_cases ht' : el.type = "text"
      · rw [if_pos ht']
        exact ih _ hnod.2 h
      · rw [if_neg ht']
        exact ih _ hnod.2 h

theorem textCopy_not_text (p : Page) (ins : List (String × String)) (q : String)
    (hnod : (p.map Prod.fst).Nodup)
    (h : ∀ e, plookup p q = some e → ¬ e.type = "text") :
    ilookup (textCopy p ins) q = ilookup ins q := by
  induction p generalizing ins with
  | nil => rfl
  | cons kv rest ih =>
    obtain ⟨k', el⟩ := kv
    simp only [List.map, List.nodup_cons] at hnod
    rw [textCopy_cons]
    by_cases hk : k' = q
    · have hel : ¬ el.type = "text" := by
        apply h el
        rw [plookup, if_pos hk]
      rw [if_neg hel]
      have hrest : q ∉ rest.map Prod.fst := hk ▸ hnod.1
      exact textCopy_not_mem rest ins q hrest
    · have h' : ∀ e, plookup rest q = some e → ¬ e.type = "text" := by
        intro e he
        apply h e
        rw [plookup, if_neg hk]
        exact he
      by_cases ht' : el.type = "text"
      · rw [if_pos ht']
        rw [ih _ hnod.2 h', ilookup_upsert_ne _ _ _ _ (fun hh => hk hh.symm)]
      · rw [if_neg ht']
        exact ih _ hnod.2 h'


/-! ### Sequencing the 87 hr-field lookups -/

theorem optSequence_append {α : Type} (l1 l2 : List (Option α)) :
    optSequence (l1 ++ l2) =
      (optSequence l1).bind (fun a => (optSequence l2).map (a ++ ·)) := by
  induction l1 with
  | nil =>
    simp only [List.nil_append, optSequence, Option.bind]
    cases optSequence l2 <;> rfl
  | cons x xs ih =>
    cases x with
    | none => rfl
    | some a =>
      simp only [List.cons_append, optSequence, List.append_eq]
      rw [ih]
      cases optSequence xs <;> cases optSequence l2 <;> rfl

theorem optSequence_map_range {α : Type} (n : Nat) (g : Nat → Option α)
    (f : Nat → α) (h : ∀ i, i < n → g i = some (f i)) :
    optSequence ((List.range n).map g) = some ((List.range n).map f) := by
  induction n with
  | zero => rfl
  | succ m ih =>
    rw [List.range_succ, List.map_append, List.map_append, optSequence_append,
      ih (fun i hi => h i (Nat.lt_succ_of_lt hi))]
    simp [h m (Nat.lt_succ_self m), optSequence]

/-! ### Enumerating a mapped range -/

theorem enumFrom_map_range' {β γ : Type} (f : Nat → β) (g : Nat × β → γ) :
    ∀ (k s : Nat),
      (List.enumFrom s ((List.range' s k).map f)).map g =
        (List.range' s k).map (fun i => g (i, f i))
  | 0, _ => rfl
  | k + 1, s => by
    rw [List.range']
    simp only [List.map, List.enumFrom]
    rw [enumFrom_map_range' f g k (s + 1)]

theorem enum_map_range {β γ : Type} (k : Nat) (f : Nat → β) (g : Nat × β → γ) :
    (List.enum ((List.range k).map f)).map g =
      (List.range k).map (fun i => g (i, f i)) := by
  rw [List.range_eq_range', List.enum]
  exact enumFrom_map_range' f g k 0

/-! ### The pagination run on the sample table, in closed form -/

/-- The footer elements as mutated before the loop: setFooterPositions
anchored at 277 - 21*(4-1) = 214 (src/src/main.ts:439). -/
def mutFooters (f1 f2 f3 f4 : Element) : List Element :=
  [setY f1 (Dec.mk 214 0), setY f2 (Dec.mk 230 0),
   setY f3 (Dec.mk 228 0), setY f4 (Dec.mk 239 0)]

/-- The original first page as the routine leaves it: the four footer
entries repositioned through their aliases, and the pages label's content
set to "Page 1 of 6" (src/src/main.ts:439 and 476). -/
def page1F (p0 : Page) (f1 f2 f3 f4 : Element) : Page :=
  pmodify (writeFooters p0 (mutFooters f1 f2 f3 f4)) "pages"
    (fun el => { el with content := "Page 1 of 6" })

/-- The value map the routine builds before the final text-copy loop, for
the 35-row sample table: the page-1 table chunk, then per additional page
n the next chunk, the period and table-period copies and the page-count
label, then the original page's count label. -/
def runInputs (tbl : List (List String)) (periodC tpC : String) :
    List (String × String) :=
  [("table", stringifyRows (tbl.take 4)),
   ("page_2_header_el_11", stringifyRows ((tbl.drop 4).take 7)),
   ("page_2_header_el_7", periodC),
   ("page_2_header_el_10", tpC),
   ("page_2_footer_el_4", "Page 2 of 6"),
   ("page_3_header_el_11", stringifyRows ((tbl.drop 11).take 7)),
   ("page_3_header_el_7", periodC),
   ("page_3_header_el_10", tpC),
   ("page_3_footer_el_4", "Page 3 of 6"),
   ("page_4_header_el_11", stringifyRows ((tbl.drop 18).take 7)),
   ("page_4_header_el_7", periodC),
   ("page_4_header_el_10", tpC),
   ("page_4_footer_el_4", "Page 4 of 6"),
   ("page_5_header_el_11", stringifyRows ((tbl.drop 25).take 7)),
   ("page_5_header_el_7", periodC),
   ("page_5_header_el_10", tpC),
   ("page_5_footer_el_4", "Page 5 of 6"),
   ("page_6_header_el_11", stringifyRows ((tbl.drop 32).take 7)),
   ("page_6_header_el_7", periodC),
   ("page_6_header_el_10", tpC),
   ("page_6_footer_el_4", "Page 6 of 6"),
   ("pages", "Page 1 of 6")]

theorem tableData_length : tableData.length = 35 := by
  simp [tableData]

theorem setFooterPositions_eval (y : Dec) (f1 f2 f3 f4 : Element) :
    setFooterPositions y [f1, f2, f3, f4] =
      [setY f1 y, setY f2 (y + Dec.ofInt 16), setY f3 (y + Dec.ofInt 14),
       setY f4 (y + Dec.ofInt 25)] := rfl

theorem setFooterPositions_length (y : Dec) (l : List Element) :
    (setFooterPositions y l).length = l.length := by
  simp [setFooterPositions, listModify_length]

theorem setHeaderPositions_length (y : Dec) (l : List Element) :
    (setHeaderPositions y l).length = l.length := by
  simp [setHeaderPositions, listModify_length]

theorem mutFooters_length (f1 f2 f3 f4 : Element) :
    (mutFooters f1 f2 f3 f4).length = 4 := rfl

theorem setFooterPositions_anchor (f1 f2 f3 f4 : Element) :
    setFooterPositions (Dec.ofInt (277 - 21 * ((PAGE_1_TABLE_ROWS_MAX : Int) - 1)))
      [f1, f2, f3, f4] = mutFooters f1 f2 f3 f4 := by
  have hA : Dec.ofInt (277 - 21 * ((PAGE_1_TABLE_ROWS_MAX : Int) - 1)) =
      Dec.mk 214 0 := by decide
  have h16 : Dec.mk 214 0 + Dec.ofInt 16 = Dec.mk 230 0 := by decide
  have h14 : Dec.mk 214 0 + Dec.ofInt 14 = Dec.mk 228 0 := by decide
  have h25 : Dec.mk 214 0 + Dec.ofInt 25 = Dec.mk 239 0 := by decide
  rw [setFooterPositions_eval, hA, h16, h14, h25, mutFooters]


theorem pageBody_eval (e1 e2 e3 e4 e5 e6 e7 e8 e9 e10 e11 f1 f2 f3 f4 : Element)
    (hrFields : List Element) (pC tC : String) (total : Nat)
    (rows : List (List String)) (schemas : List Page)
    (ins : List (String × String)) (pageI : Nat) :
    pageBody [e1, e2, e3, e4, e5, e6, e7, e8, e9, e10, e11]
      (mutFooters f1 f2 f3 f4) hrFields pC tC total ⟨rows, schemas, ins⟩ pageI =
      ⟨rows.drop 7,
       jsArraySet schemas pageI
         (newPage [e1, e2, e3, e4, e5, e6, e7, e8, e9, e10, e11]
           (mutFooters f1 f2 f3 f4) hrFields (pageI + 1)),
       upsert (upsert (upsert (upsert ins
         (pageKey (pageI + 1) "_header_el_" 11) (stringifyRows (rows.take 7)))
         (pageKey (pageI + 1) "_header_el_" 7) pC)
         (pageKey (pageI + 1) "_header_el_" 10) tC)
         (pageKey (pageI + 1) "_footer_el_" 4)
         ("Page " ++ natStr (pageI + 1) ++ " of " ++ natStr total)⟩ := by
  simp only [pageBody, PAGE_2_TABLE_ROWS_MAX, setHeaderPositions_length,
    setFooterPositions_length, mutFooters_length, List.length_cons,
    List.length_nil]


theorem upsert_nil (k v : String) : upsert [] k v = [(k, v)] := rfl

theorem upsert_cons (k' v' : String) (rest : List (String × String)) (k v : String) :
    upsert ((k', v') :: rest) k v =
      if k' = k then (k', v) :: rest else (k', v') :: upsert rest k v := rfl

theorem schemas_chain_eval (p w n2 n3 n4 n5 n6 m : Page) :
    jsArraySet (jsArraySet (jsArraySet (jsArraySet (jsArraySet (jsArraySet
      (jsArraySet [p] 0 w) 1 n2) 2 n3) 3 n4) 4 n5) 5 n6) 0 m =
      [m, n2, n3, n4, n5, n6] := rfl

theorem inputs_chain_eval (v1 a2 b2 c2 d2 a3 b3 c3 d3 a4 b4 c4 d4
    a5 b5 c5 d5 a6 b6 c6 d6 vp : String) :
    upsert (upsert (upsert (upsert (upsert (upsert (upsert (upsert (upsert
      (upsert (upsert (upsert (upsert (upsert (upsert (upsert (upsert
      (upsert (upsert (upsert (upsert (upsert [] "table" v1)
      "page_2_header_el_11" a2) "page_2_header_el_7" b2)
      "page_2_header_el_10" c2) "page_2_footer_el_4" d2)
      "page_3_header_el_11" a3) "page_3_header_el_7" b3)
      "page_3_header_el_10" c3) "page_3_footer_el_4" d3)
      "page_4_header_el_11" a4) "page_4_header_el_7" b4)
      "page_4_header_el_10" c4) "page_4_footer_el_4" d4)
      "page_5_header_el_11" a5) "page_5_header_el_7" b5)
      "page_5_header_el_10" c5) "page_5_footer_el_4" d5)
      "page_6_header_el_11" a6) "page_6_header_el_7" b6)
      "page_6_header_el_10" c6) "page_6_footer_el_4" d6)
      "pages" vp =
      [("table", v1),
       ("page_2_header_el_11", a2), ("page_2_header_el_7", b2),
       ("page_2_header_el_10", c2), ("page_2_footer_el_4", d2),
       ("page_3_header_el_11", a3), ("page_3_header_el_7", b3),
       ("page_3_header_el_10", c3), ("page_3_footer_el_4", d3),
       ("page_4_header_el_11", a4), ("page_4_header_el_7", b4),
       ("page_4_header_el_10", c4), ("page_4_footer_el_4", d4),
       ("page_5_header_el_11", a5), ("page_5_header_el_7", b5),
       ("page_5_header_el_10", c5), ("page_5_footer_el_4", d5),
       ("page_6_header_el_11", a6), ("page_6_header_el_7", b6),
       ("page_6_header_el_10", c6), ("page_6_footer_el_4", d6),
       ("pages", vp)] := by
  simp only [upsert_nil, upsert_cons, String.reduceEq, reduceIte]

set_option maxHeartbeats 1600000 in
theorem generateRoutine_run (tbl : List (List String)) (doc0 : Doc) (p0 : Page)
    (e1 e2 e3 e4 e5 e6 e7 e8 e9 e10 e11 f1 f2 f3 f4 : Element)
    (flds : Nat → Element)
    (hlen : tbl.length = 35)
    (hs : doc0.schemas = [p0])
    (h1 : plookup p0 "header_rect" = some e1)
    (h2 : plookup p0 "logo" = some e2)
    (h3 : plookup p0 "header_rect_hr" = some e3)
    (h4 : plookup p0 "lunu_address" = some e4)
    (h5 : plookup p0 "header_title" = some e5)
    (h6 : plookup p0 "period_title" = some e6)
    (h7 : plookup p0 "period" = some e7)
    (h8 : plookup p0 "table_header_rect" = some e8)
    (h9 : plookup p0 "table_header_title" = some e9)
    (h10 : plookup p0 "table_period" = some e10)
    (h11 : plookup p0 "table" = some e11)
    (hf1 : plookup p0 "footer_el_1" = some f1)
    (hf2 : plookup p0 "footer_el_2" = some f2)
    (hf3 : plookup p0 "footer_el_3" = some f3)
    (hf4 : plookup p0 "pages" = some f4)
    (hfl : ∀ i, i < 87 → plookup p0 ("field" ++ natStr (28 + i)) = some (flds i)) :
    generateRoutine tbl doc0 = some
      ⟨⟨doc0.basePdf,
        [page1F p0 f1 f2 f3 f4,
         newPage [e1, e2, e3, e4, e5, e6, e7, e8, e9, e10, e11]
           (mutFooters f1 f2 f3 f4) ((List.range 87).map flds) 2,
         newPage [e1, e2, e3, e4, e5, e6, e7, e8, e9, e10, e11]
           (mutFooters f1 f2 f3 f4) ((List.range 87).map flds) 3,
         newPage [e1, e2, e3, e4, e5, e6, e7, e8, e9, e10, e11]
           (mutFooters f1 f2 f3 f4) ((List.range 87).map flds) 4,
         newPage [e1, e2, e3, e4, e5, e6, e7, e8, e9, e10, e11]
           (mutFooters f1 f2 f3 f4) ((List.range 87).map flds) 5,
         newPage [e1, e2, e3, e4, e5, e6, e7, e8, e9, e10, e11]
           (mutFooters f1 f2 f3 f4) ((List.range 87).map flds) 6]⟩,
       textCopy (page1F p0 f1 f2 f3 f4) (runInputs tbl e7.content e10.content)⟩ := by
  have hseq : optSequence ((List.range 87).map
      (fun i => plookup p0 ("field" ++ natStr (28 + i)))) =
      some ((List.range 87).map flds) :=
    optSequence_map_range 87 _ flds hfl
  have hH : optSequence (headerKeys.map (plookup p0)) =
      some [e1, e2, e3, e4, e5, e6, e7, e8, e9, e10, e11] := by
    simp [headerKeys, optSequence, h1, h2, h3, h4, h5, h6, h7, h8, h9, h10, h11]
  have hF : optSequence (footerKeys.map (plookup p0)) = some [f1, f2, f3, f4] := by
    simp [footerKeys, optSequence, hf1, hf2, hf3, hf4]
  rw [generateRoutine, hs]
  simp only [List.head?]
  rw [if_pos (by rw [hlen]; decide)]
  rw [hH, hF, hseq, h7, h10]
  dsimp only []
  rw [setFooterPositions_anchor]
  simp only [PAGE_1_TABLE_ROWS_MAX, PAGE_2_TABLE_ROWS_MAX, List.length_drop,
    hlen, Nat.reduceSub, Nat.reduceAdd, Nat.reduceDiv]
  rw [show List.range' 1 5 = [1, 2, 3, 4, 5] from rfl]
  simp only [List.foldl, pageBody_eval, Nat.reduceAdd]
  simp only [List.drop_drop, Nat.reduceAdd]
  simp only [pageKey, natStr1, natStr2, natStr3, natStr4, natStr5, natStr6,
    natStr7, natStr10, natStr11, String.reduceAppend]
  rw [inputs_chain_eval, schemas_chain_eval]
  simp only [page1F, runInputs]

/-! ### Lookups on the mutated first page -/

theorem keys_page1F (p0 : Page) (f1 f2 f3 f4 : Element) :
    (page1F p0 f1 f2 f3 f4).map Prod.fst = p0.map Prod.fst := by
  rw [page1F, keys_pmodify]
  simp only [mutFooters, writeFooters, keys_pset]

theorem plookup_writeFooters_pages (p0 : Page) (f1 f2 f3 f4 e : Element)
    (hf4 : plookup p0 "pages" = some e) :
    plookup (writeFooters p0 (mutFooters f1 f2 f3 f4)) "pages" =
      some (setY f4 (Dec.mk 239 0)) := by
  show plookup (pset (pset (pset (pset p0 "footer_el_1" (setY f1 (Dec.mk 214 0)))
    "footer_el_2" (setY f2 (Dec.mk 230 0))) "footer_el_3" (setY f3 (Dec.mk 228 0)))
    "pages" (setY f4 (Dec.mk 239 0))) "pages" = some (setY f4 (Dec.mk 239 0))
  have h1 : plookup (pset p0 "footer_el_1" (setY f1 (Dec.mk 214 0))) "pages" =
      some e := by
    rw [plookup_pset_ne _ _ _ _ (by decide)]; exact hf4
  have h2 : plookup (pset (pset p0 "footer_el_1" (setY f1 (Dec.mk 214 0)))
      "footer_el_2" (setY f2 (Dec.mk 230 0))) "pages" = some e := by
    rw [plookup_pset_ne _ _ _ _ (by decide)]; exact h1
  have h3 : plookup (pset (pset (pset p0 "footer_el_1" (setY f1 (Dec.mk 214 0)))
      "footer_el_2" (setY f2 (Dec.mk 230 0))) "footer_el_3"
      (setY f3 (Dec.mk 228 0))) "pages" = some e := by
    rw [plookup_pset_ne _ _ _ _ (by decide)]; exact h2
  exact plookup_pset_self _ _ e _ h3

theorem plookup_page1F_pages (p0 : Page) (f1 f2 f3 f4 e : Element)
    (hf4 : plookup p0 "pages" = some e) :
    plookup (page1F p0 f1 f2 f3 f4) "pages" =
      some { setY f4 (Dec.mk 239 0) with content := "Page 1 of 6" } := by
  rw [page1F, plookup_pmodify_self _ _ _ _
    (plookup_writeFooters_pages p0 f1 f2 f3 f4 e hf4)]

theorem plookup_page1F_ne (p0 : Page) (f1 f2 f3 f4 : Element) (k : String)
    (hk1 : k ≠ "footer_el_1") (hk2 : k ≠ "footer_el_2")
    (hk3 : k ≠ "footer_el_3") (hk4 : k ≠ "pages") :
    plookup (page1F p0 f1 f2 f3 f4) k = plookup p0 k := by
  rw [page1F, plookup_pmodify_ne _ _ _ _ hk4]
  show plookup (pset (pset (pset (pset p0 "footer_el_1" (setY f1 (Dec.mk 214 0)))
    "footer_el_2" (setY f2 (Dec.mk 230 0))) "footer_el_3" (setY f3 (Dec.mk 228 0)))
    "pages" (setY f4 (Dec.mk 239 0))) k = plookup p0 k
  rw [plookup_pset_ne _ _ _ _ hk4, plookup_pset_ne _ _ _ _ hk3,
    plookup_pset_ne _ _ _ _ hk2, plookup_pset_ne _ _ _ _ hk1]

theorem plookup_page1F_footer1 (p0 : Page) (f1 f2 f3 f4 e : Element)
    (hf1 : plookup p0 "footer_el_1" = some e) :
    plookup (page1F p0 f1 f2 f3 f4) "footer_el_1" =
      some (setY f1 (Dec.mk 214 0)) := by
  rw [page1F, plookup_pmodify_ne _ _ _ _ (by decide)]
  show plookup (pset (pset (pset (pset p0 "footer_el_1" (setY f1 (Dec.mk 214 0)))
    "footer_el_2" (setY f2 (Dec.mk 230 0))) "footer_el_3" (setY f3 (Dec.mk 228 0)))
    "pages" (setY f4 (Dec.mk 239 0))) "footer_el_1" = some (setY f1 (Dec.mk 214 0))
  rw [plookup_pset_ne _ _ _ _ (by decide), plookup_pset_ne _ _ _ _ (by decide),
    plookup_pset_ne _ _ _ _ (by decide)]
  exact plookup_pset_self _ _ e _ hf1

theorem plookup_page1F_footer2 (p0 : Page) (f1 f2 f3 f4 e : Element)
    (hf2 : plookup p0 "footer_el_2" = some e) :
    plookup (page1F p0 f1 f2 f3 f4) "footer_el_2" =
      some (setY f2 (Dec.mk 230 0)) := by
  rw [page1F, plookup_pmodify_ne _ _ _ _ (by decide)]
  show plookup (pset (pset (pset (pset p0 "footer_el_1" (setY f1 (Dec.mk 214 0)))
    "footer_el_2" (setY f2 (Dec.mk 230 0))) "footer_el_3" (setY f3 (Dec.mk 228 0)))
    "pages" (setY f4 (Dec.mk 239 0))) "footer_el_2" = some (setY f2 (Dec.mk 230 0))
  rw [plookup_pset_ne _ _ _ _ (by decide), plookup_pset_ne _ _ _ _ (by decide)]
  apply plookup_pset_self
  rw [plookup_pset_ne _ _ _ _ (by decide)]
  exact hf2

theorem plookup_page1F_footer3 (p0 : Page) (f1 f2 f3 f4 e : Element)
    (hf3 : plookup p0 "footer_el_3" = some e) :
    plookup (page1F p0 f1 f2 f3 f4) "footer_el_3" =
      some (setY f3 (Dec.mk 228 0)) := by
  rw [page1F, plookup_pmodify_ne _ _ _ _ (by decide)]
  show plookup (pset (pset (pset (pset p0 "footer_el_1" (setY f1 (Dec.mk 214 0)))
    "footer_el_2" (setY f2 (Dec.mk 230 0))) "footer_el_3" (setY f3 (Dec.mk 228 0)))
    "pages" (setY f4 (Dec.mk 239 0))) "footer_el_3" = some (setY f3 (Dec.mk 228 0))
  rw [plookup_pset_ne _ _ _ _ (by decide)]
  apply plookup_pset_self
  rw [plookup_pset_ne _ _ _ _ (by decide), plookup_pset_ne _ _ _ _ (by decide)]
  exact hf3

/-! ### The generated additional page, in closed form -/

theorem setHeaderPositions_eval (y : Dec)
    (e1 e2 e3 e4 e5 e6 e7 e8 e9 e10 e11 : Element) :
    setHeaderPositions y [e1, e2, e3, e4, e5, e6, e7, e8, e9, e10, e11] =
      [setY e1 y, setY e2 (y + Dec.ofInt 10), setY e3 (y + Dec.mk 124 1),
       setY e4 (y + Dec.ofInt 5), setY e5 (y + Dec.ofInt 33),
       setY e6 (y + Dec.ofInt 35), setY e7 (y + Dec.ofInt 41),
       setY e8 (y + Dec.ofInt 55), setY e9 (y + Dec.ofInt 59),
       setY e10 (y + Dec.ofInt 59), setY e11 (y + Dec.ofInt 67)] := rfl

theorem newPage_eval (n : Nat)
    (e1 e2 e3 e4 e5 e6 e7 e8 e9 e10 e11 f1 f2 f3 f4 : Element)
    (flds : Nat → Element) :
    newPage [e1, e2, e3, e4, e5, e6, e7, e8, e9, e10, e11]
      (mutFooters f1 f2 f3 f4) ((List.range 87).map flds) n =
      [(pageKey n "_header_el_" 1, setY e1 (Dec.mk 10 0)),
       (pageKey n "_header_el_" 2, setY e2 (Dec.mk 20 0)),
       (pageKey n "_header_el_" 3, setY e3 (Dec.mk 224 1)),
       (pageKey n "_header_el_" 4, setY e4 (Dec.mk 15 0)),
       (pageKey n "_header_el_" 5, setY e5 (Dec.mk 43 0)),
       (pageKey n "_header_el_" 6, setY e6 (Dec.mk 45 0)),
       (pageKey n "_header_el_" 7, setY e7 (Dec.mk 51 0)),
       (pageKey n "_header_el_" 8, setY e8 (Dec.mk 65 0)),
       (pageKey n "_header_el_" 9, setY e9 (Dec.mk 69 0)),
       (pageKey n "_header_el_" 10, setY e10 (Dec.mk 69 0)),
       (pageKey n "_header_el_" 11, setY e11 (Dec.mk 77 0)),
       (pageKey n "_footer_el_" 1, setY f1 (Dec.mk 215 0)),
       (pageKey n "_footer_el_" 2, setY f2 (Dec.mk 231 0)),
       (pageKey n "_footer_el_" 3, setY f3 (Dec.mk 229 0)),
       (pageKey n "_footer_el_" 4, setY f4 (Dec.mk 240 0))] ++
      (List.range 87).map
        (fun i => (pageKey n "_table_hr_" (i + 1), setY (flds i) (Dec.mk 90 0))) := by
  have ha1 : (Dec.ofInt 10 : Dec) = Dec.mk 10 0 := rfl
  have ha2 : Dec.ofInt 10 + Dec.ofInt 10 = Dec.mk 20 0 := by decide
  have ha3 : Dec.ofInt 10 + Dec.mk 124 1 = Dec.mk 224 1 := by decide
  have ha4 : Dec.ofInt 10 + Dec.ofInt 5 = Dec.mk 15 0 := by decide
  have ha5 : Dec.ofInt 10 + Dec.ofInt 33 = Dec.mk 43 0 := by decide
  have ha6 : Dec.ofInt 10 + Dec.ofInt 35 = Dec.mk 45 0 := by decide
  have ha7 : Dec.ofInt 10 + Dec.ofInt 41 = Dec.mk 51 0 := by decide
  have ha8 : Dec.ofInt 10 + Dec.ofInt 55 = Dec.mk 65 0 := by decide
  have ha9 : Dec.ofInt 10 + Dec.ofInt 59 = Dec.mk 69 0 := by decide
  have ha11 : Dec.ofInt 10 + Dec.ofInt 67 = Dec.mk 77 0 := by decide
  have hb1 : (Dec.ofInt 215 : Dec) = Dec.mk 215 0 := rfl
  have hb2 : Dec.ofInt 215 + Dec.ofInt 16 = Dec.mk 231 0 := by decide
  have hb3 : Dec.ofInt 215 + Dec.ofInt 14 = Dec.mk 229 0 := by decide
  have hb4 : Dec.ofInt 215 + Dec.ofInt 25 = Dec.mk 240 0 := by decide
  have h90 : (Dec.ofInt 90 : Dec) = Dec.mk 90 0 := rfl
  rw [newPage, mutFooters, setFooterPositions_eval, setHeaderPositions_eval]
  rw [setY_setY, setY_setY, setY_setY, setY_setY]
  rw [ha2, ha3, ha4, ha5, ha6, ha7, ha8, ha9, ha11, ha1, hb2, hb3, hb4, hb1, h90]
  rw [enum_map_range]
  simp only [List.enum, List.enumFrom, List.map, List.cons_append,
    List.nil_append]

/-! ### A concrete sample template, for the witnesses -/

def mkEl (t c : String) (x y : Dec) : Element :=
  { type := t, content := c, position := { x := x, y := y },
    width := Dec.ofInt 40, height := Dec.ofInt 10 }

/-- The hr divider element (all 87 hr fields share this value). -/
def hrEl : Element := mkEl "line" "" (Dec.ofInt 10) (Dec.ofInt 95)

def hrFieldEntries : Page :=
  (List.range 87).map (fun i => ("field" ++ natStr (28 + i), hrEl))

def samplePage : Page :=
  [("header_rect", mkEl "rectangle" "" (Dec.ofInt 0) (Dec.ofInt 0)),
   ("logo", mkEl "readOnlySvg" "<svg/>" (Dec.ofInt 10) (Dec.ofInt 10)),
   ("header_rect_hr", mkEl "line" "" (Dec.ofInt 0) (Dec.mk 124 1)),
   ("lunu_address", mkEl "readOnlyText" "Lunu Pay GmbH" (Dec.ofInt 10) (Dec.ofInt 5)),
   ("header_title", mkEl "readOnlyText" "Transactions report" (Dec.ofInt 10) (Dec.ofInt 33)),
   ("period_title", mkEl "readOnlyText" "Period" (Dec.ofInt 10) (Dec.ofInt 35)),
   ("period", mkEl "text" "01.05.2024 - 31.05.2024" (Dec.ofInt 10) (Dec.ofInt 41)),
   ("table_header_rect", mkEl "rectangle" "" (Dec.ofInt 0) (Dec.ofInt 55)),
   ("table_header_title", mkEl "readOnlyText" "Transactions" (Dec.ofInt 10) (Dec.ofInt 59)),
   ("table_period", mkEl "text" "May 2024" (Dec.ofInt 10) (Dec.ofInt 59)),
   ("table", mkEl "tableBeta" "[]" (Dec.ofInt 10) (Dec.ofInt 67)),
   ("footer_el_1", mkEl "line" "" (Dec.ofInt 10) (Dec.ofInt 214)),
   ("footer_el_2", mkEl "readOnlyText" "footer2" (Dec.ofInt 10) (Dec.ofInt 230)),
   ("footer_el_3", mkEl "readOnlyText" "footer3" (Dec.ofInt 10) (Dec.ofInt 228)),
   ("pages", mkEl "text" "Page 1 of 6" (Dec.ofInt 180) (Dec.ofInt 239))] ++
  hrFieldEntries

def sampleDoc : Doc :=
  { basePdf := ⟨[some (Dec.ofInt 10), some (Dec.ofInt 10), some (Dec.ofInt 10),
      some (Dec.ofInt 10)]⟩,
    schemas := [samplePage] }

theorem samplePage_nodup : (samplePage.map Prod.fst).Nodup := by decide

theorem samplePage_hr :
    ∀ i, i < 87 → plookup samplePage ("field" ++ natStr (28 + i)) = some hrEl := by
  decide

theorem samplePage_fresh :
    ∀ n, n < 7 → 2 ≤ n → pageKey n "_footer_el_" 4 ∉ samplePage.map Prod.fst := by
  decide

/-! ## Claim theorems -/

/-- C1: For the fixed 35-row sample table with page-1 capacity 4 and
subsequent capacity 7, the pagination routine produces exactly 5
additional schema pages (ceil(31/7) = 5), so 6 pages in total; the
original page's page-count label and the value map's pages entry read
"Page 1 of 6", and each additional page n carries the value-map entry
"Page n of 6" under its page_{n}_footer_el_4 key, up to "Page 6 of 6". -/
theorem C1_pagination_total (doc0 : Doc) (p0 : Page)
    (e1 e2 e3 e4 e5 e6 e7 e8 e9 e10 e11 f1 f2 f3 f4 : Element)
    (flds : Nat → Element)
    (hs : doc0.schemas = [p0])
    (hnod : (p0.map Prod.fst).Nodup)
    (h1 : plookup p0 "header_rect" = some e1)
    (h2 : plookup p0 "logo" = some e2)
    (h3 : plookup p0 "header_rect_hr" = some e3)
    (h4 : plookup p0 "lunu_address" = some e4)
    (h5 : plookup p0 "header_title" = some e5)
    (h6 : plookup p0 "period_title" = some e6)
    (h7 : plookup p0 "period" = some e7)
    (h8 : plookup p0 "table_header_rect" = some e8)
    (h9 : plookup p0 "table_header_title" = some e9)
    (h10 : plookup p0 "table_period" = some e10)
    (h11 : plookup p0 "table" = some e11)
    (hf1 : plookup p0 "footer_el_1" = some f1)
    (hf2 : plookup p0 "footer_el_2" = some f2)
    (hf3 : plookup p0 "footer_el_3" = some f3)
    (hf4 : plookup p0 "pages" = some f4)
    (hfl : ∀ i, i < 87 → plookup p0 ("field" ++ natStr (28 + i)) = some (flds i))
    (hfr : ∀ n, n < 7 → 2 ≤ n → pageKey n "_footer_el_" 4 ∉ p0.map Prod.fst) :
    ∃ out, generateRoutine tableData doc0 = some out ∧
      out.doc.schemas.length = 6 ∧
      (∃ el, out.doc.schemas.head?.bind (fun p => plookup p "pages") = some el ∧
        el.content = "Page 1 of 6") ∧
      ilookup out.inputs "pages" = some "Page 1 of 6" ∧
      (∀ n, n < 7 → 2 ≤ n →
        ilookup out.inputs (pageKey n "_footer_el_" 4) =
          some ("Page " ++ natStr n ++ " of 6")) := by
  have run := generateRoutine_run tableData doc0 p0 e1 e2 e3 e4 e5 e6 e7 e8 e9
    e10 e11 f1 f2 f3 f4 flds tableData_length hs h1 h2 h3 h4 h5 h6 h7 h8 h9
    h10 h11 hf1 hf2 hf3 hf4 hfl
  have hnod1 : ((page1F p0 f1 f2 f3 f4).map Prod.fst).Nodup := by
    rw [keys_page1F]; exact hnod
  have hpg := plookup_page1F_pages p0 f1 f2 f3 f4 f4 hf4
  refine ⟨_, run, by simp, ?_, ?_, ?_⟩
  · refine ⟨{ setY f4 (Dec.mk 239 0) with content := "Page 1 of 6" }, ?_, rfl⟩
    simp [hpg]
  · by_cases hft : f4.type = "text"
    · rw [textCopy_text _ _ "pages" _ hnod1 hpg hft]
    · rw [textCopy_not_text _ _ "pages" hnod1 ?_]
      · rfl
      · intro e' he'
        rw [hpg] at he'
        cases he'
        exact hft
  · intro n hn7 hn2
    rw [textCopy_not_mem _ _ _ (by rw [keys_page1F]; exact hfr n hn7 hn2)]
    interval_cases n <;> rfl

/-- C1 witness: the sample template provides every named element, and the
routine's run on it produces the six pages and the page-count labels. -/
theorem C1_pagination_total_witness :
    (samplePage.map Prod.fst).Nodup ∧
    ∃ out, generateRoutine tableData sampleDoc = some out ∧
      out.doc.schemas.length = 6 ∧
      (∃ el, out.doc.schemas.head?.bind (fun p => plookup p "pages") = some el ∧
        el.content = "Page 1 of 6") ∧
      ilookup out.inputs "pages" = some "Page 1 of 6" ∧
      (∀ n, n < 7 → 2 ≤ n →
        ilookup out.inputs (pageKey n "_footer_el_" 4) =
          some ("Page " ++ natStr n ++ " of 6")) :=
  ⟨samplePage_nodup,
   C1_pagination_total sampleDoc samplePage
    (mkEl "rectangle" "" (Dec.ofInt 0) (Dec.ofInt 0))
    (mkEl "readOnlySvg" "<svg/>" (Dec.ofInt 10) (Dec.ofInt 10))
    (mkEl "line" "" (Dec.ofInt 0) (Dec.mk 124 1))
    (mkEl "readOnlyText" "Lunu Pay GmbH" (Dec.ofInt 10) (Dec.ofInt 5))
    (mkEl "readOnlyText" "Transactions report" (Dec.ofInt 10) (Dec.ofInt 33))
    (mkEl "readOnlyText" "Period" (Dec.ofInt 10) (Dec.ofInt 35))
    (mkEl "text" "01.05.2024 - 31.05.2024" (Dec.ofInt 10) (Dec.ofInt 41))
    (mkEl "rectangle" "" (Dec.ofInt 0) (Dec.ofInt 55))
    (mkEl "readOnlyText" "Transactions" (Dec.ofInt 10) (Dec.ofInt 59))
    (mkEl "text" "May 2024" (Dec.ofInt 10) (Dec.ofInt 59))
    (mkEl "tableBeta" "[]" (Dec.ofInt 10) (Dec.ofInt 67))
    (mkEl "line" "" (Dec.ofInt 10) (Dec.ofInt 214))
    (mkEl "readOnlyText" "footer2" (Dec.ofInt 10) (Dec.ofInt 230))
    (mkEl "readOnlyText" "footer3" (Dec.ofInt 10) (Dec.ofInt 228))
    (mkEl "text" "Page 1 of 6" (Dec.ofInt 180) (Dec.ofInt 239))
    (fun _ => hrEl) rfl samplePage_nodup rfl rfl rfl rfl rfl rfl rfl rfl rfl
    rfl rfl rfl rfl rfl rfl samplePage_hr samplePage_fresh⟩

theorem samplePage_fresh3 :
    ∀ n, n < 7 → 2 ≤ n →
      pageKey n "_header_el_" 11 ∉ samplePage.map Prod.fst ∧
      pageKey n "_header_el_" 7 ∉ samplePage.map Prod.fst ∧
      pageKey n "_header_el_" 10 ∉ samplePage.map Prod.fst ∧
      pageKey n "_footer_el_" 4 ∉ samplePage.map Prod.fst := by
  decide

/-- C3: each additional schema page n consists exactly of the repositioned
header copies page_{n}_header_el_1..11 (anchored at y=10 with the
per-element offsets 10, 12.4, 5, 33, 35, 41, 55, 59, 59, 67), the
repositioned footer copies page_{n}_footer_el_1..4 (anchored at y=215),
and the 87 hr-field copies page_{n}_table_hr_1..87 with y set to 90; the
value map receives the next at-most-7-row chunk under the copied table
element's key, copies of the period and table-period texts, and the label
"Page {n} of {total}". -/
theorem C3_additional_page_shape (doc0 : Doc) (p0 : Page)
    (e1 e2 e3 e4 e5 e6 e7 e8 e9 e10 e11 f1 f2 f3 f4 : Element)
    (flds : Nat → Element)
    (hs : doc0.schemas = [p0])
    (h1 : plookup p0 "header_rect" = some e1)
    (h2 : plookup p0 "logo" = some e2)
    (h3 : plookup p0 "header_rect_hr" = some e3)
    (h4 : plookup p0 "lunu_address" = some e4)
    (h5 : plookup p0 "header_title" = some e5)
    (h6 : plookup p0 "period_title" = some e6)
    (h7 : plookup p0 "period" = some e7)
    (h8 : plookup p0 "table_header_rect" = some e8)
    (h9 : plookup p0 "table_header_title" = some e9)
    (h10 : plookup p0 "table_period" = some e10)
    (h11 : plookup p0 "table" = some e11)
    (hf1 : plookup p0 "footer_el_1" = some f1)
    (hf2 : plookup p0 "footer_el_2" = some f2)
    (hf3 : plookup p0 "footer_el_3" = some f3)
    (hf4 : plookup p0 "pages" = some f4)
    (hfl : ∀ i, i < 87 → plookup p0 ("field" ++ natStr (28 + i)) = some (flds i))
    (hfr : ∀ n, n < 7 → 2 ≤ n →
      pageKey n "_header_el_" 11 ∉ p0.map Prod.fst ∧
      pageKey n "_header_el_" 7 ∉ p0.map Prod.fst ∧
      pageKey n "_header_el_" 10 ∉ p0.map Prod.fst ∧
      pageKey n "_footer_el_" 4 ∉ p0.map Prod.fst) :
    ∃ out, generateRoutine tableData doc0 = some out ∧
      ∀ n, n < 7 → 2 ≤ n →
        out.doc.schemas[n - 1]? = some
          ([(pageKey n "_header_el_" 1, setY e1 (Dec.mk 10 0)),
            (pageKey n "_header_el_" 2, setY e2 (Dec.mk 20 0)),
            (pageKey n "_header_el_" 3, setY e3 (Dec.mk 224 1)),
            (pageKey n "_header_el_" 4, setY e4 (Dec.mk 15 0)),
            (pageKey n "_header_el_" 5, setY e5 (Dec.mk 43 0)),
            (pageKey n "_header_el_" 6, setY e6 (Dec.mk 45 0)),
            (pageKey n "_header_el_" 7, setY e7 (Dec.mk 51 0)),
            (pageKey n "_header_el_" 8, setY e8 (Dec.mk 65 0)),
            (pageKey n "_header_el_" 9, setY e9 (Dec.mk 69 0)),
            (pageKey n "_header_el_" 10, setY e10 (Dec.mk 69 0)),
            (pageKey n "_header_el_" 11, setY e11 (Dec.mk 77 0)),
            (pageKey n "_footer_el_" 1, setY f1 (Dec.mk 215 0)),
            (pageKey n "_footer_el_" 2, setY f2 (Dec.mk 231 0)),
            (pageKey n "_footer_el_" 3, setY f3 (Dec.mk 229 0)),
            (pageKey n "_footer_el_" 4, setY f4 (Dec.mk 240 0))] ++
           (List.range 87).map
             (fun i => (pageKey n "_table_hr_" (i + 1), setY (flds i) (Dec.mk 90 0)))) ∧
        ilookup out.inputs (pageKey n "_header_el_" 11) =
          some (stringifyRows ((tableData.drop (7 * n - 10)).take 7)) ∧
        ilookup out.inputs (pageKey n "_header_el_" 7) = some e7.content ∧
        ilookup out.inputs (pageKey n "_header_el_" 10) = some e10.content ∧
        ilookup out.inputs (pageKey n "_footer_el_" 4) =
          some ("Page " ++ natStr n ++ " of " ++ natStr 6) := by
  have run := generateRoutine_run tableData doc0 p0 e1 e2 e3 e4 e5 e6 e7 e8 e9
    e10 e11 f1 f2 f3 f4 flds tableData_length hs h1 h2 h3 h4 h5 h6 h7 h8 h9
    h10 h11 hf1 hf2 hf3 hf4 hfl
  refine ⟨_, run, ?_⟩
  intro n hn7 hn2
  obtain ⟨hk11, hk7, hk10, hk4⟩ := hfr n hn7 hn2
  have t11 := textCopy_not_mem (page1F p0 f1 f2 f3 f4)
    (runInputs tableData e7.content e10.content) (pageKey n "_header_el_" 11)
    (by rw [keys_page1F]; exact hk11)
  have t7 := textCopy_not_mem (page1F p0 f1 f2 f3 f4)
    (runInputs tableData e7.content e10.content) (pageKey n "_header_el_" 7)
    (by rw [keys_page1F]; exact hk7)
  have t10 := textCopy_not_mem (page1F p0 f1 f2 f3 f4)
    (runInputs tableData e7.content e10.content) (pageKey n "_header_el_" 10)
    (by rw [keys_page1F]; exact hk10)
  have t4 := textCopy_not_mem (page1F p0 f1 f2 f3 f4)
    (runInputs tableData e7.content e10.content) (pageKey n "_footer_el_" 4)
    (by rw [keys_page1F]; exact hk4)
  interval_cases n <;>
    exact ⟨congrArg some (newPage_eval _ _ _ _ _ _ _ _ _ _ _ _ _ _ _ _ _),
      t11.trans rfl, t7.trans rfl, t10.trans rfl, t4.trans rfl⟩

/-- C3 witness: the sample template's run, with page 2's shape and value
entries spelled out by the theorem. -/
theorem C3_additional_page_shape_witness :
    (∀ n, n < 7 → 2 ≤ n →
      pageKey n "_header_el_" 11 ∉ samplePage.map Prod.fst ∧
      pageKey n "_header_el_" 7 ∉ samplePage.map Prod.fst ∧
      pageKey n "_header_el_" 10 ∉ samplePage.map Prod.fst ∧
      pageKey n "_footer_el_" 4 ∉ samplePage.map Prod.fst) ∧
    ∃ out, generateRoutine tableData sampleDoc = some out ∧
      ∀ n, n < 7 → 2 ≤ n →
        out.doc.schemas[n - 1]? = some
          ([(pageKey n "_header_el_" 1, setY (mkEl "rectangle" "" (Dec.ofInt 0) (Dec.ofInt 0)) (Dec.mk 10 0)),
            (pageKey n "_header_el_" 2, setY (mkEl "readOnlySvg" "<svg/>" (Dec.ofInt 10) (Dec.ofInt 10)) (Dec.mk 20 0)),
            (pageKey n "_header_el_" 3, setY (mkEl "line" "" (Dec.ofInt 0) (Dec.mk 124 1)) (Dec.mk 224 1)),
            (pageKey n "_header_el_" 4, setY (mkEl "readOnlyText" "Lunu Pay GmbH" (Dec.ofInt 10) (Dec.ofInt 5)) (Dec.mk 15 0)),
            (pageKey n "_header_el_" 5, setY (mkEl "readOnlyText" "Transactions report" (Dec.ofInt 10) (Dec.ofInt 33)) (Dec.mk 43 0)),
            (pageKey n "_header_el_" 6, setY (mkEl "readOnlyText" "Period" (Dec.ofInt 10) (Dec.ofInt 35)) (Dec.mk 45 0)),
            (pageKey n "_header_el_" 7, setY (mkEl "text" "01.05.2024 - 31.05.2024" (Dec.ofInt 10) (Dec.ofInt 41)) (Dec.mk 51 0)),
            (pageKey n "_header_el_" 8, setY (mkEl "rectangle" "" (Dec.ofInt 0) (Dec.ofInt 55)) (Dec.mk 65 0)),
            (pageKey n "_header_el_" 9, setY (mkEl "readOnlyText" "Transactions" (Dec.ofInt 10) (Dec.ofInt 59)) (Dec.mk 69 0)),
            (pageKey n "_header_el_" 10, setY (mkEl "text" "May 2024" (Dec.ofInt 10) (Dec.ofInt 59)) (Dec.mk 69 0)),
            (pageKey n "_header_el_" 11, setY (mkEl "tableBeta" "[]" (Dec.ofInt 10) (Dec.ofInt 67)) (Dec.mk 77 0)),
            (pageKey n "_footer_el_" 1, setY (mkEl "line" "" (Dec.ofInt 10) (Dec.ofInt 214)) (Dec.mk 215 0)),
            (pageKey n "_footer_el_" 2, setY (mkEl "readOnlyText" "footer2" (Dec.ofInt 10) (Dec.ofInt 230)) (Dec.mk 231 0)),
            (pageKey n "_footer_el_" 3, setY (mkEl "readOnlyText" "footer3" (Dec.ofInt 10) (Dec.ofInt 228)) (Dec.mk 229 0)),
            (pageKey n "_footer_el_" 4, setY (mkEl "text" "Page 1 of 6" (Dec.ofInt 180) (Dec.ofInt 239)) (Dec.mk 240 0))] ++
           (List.range 87).map
             (fun i => (pageKey n "_table_hr_" (i + 1), setY hrEl (Dec.mk 90 0)))) ∧
        ilookup out.inputs (pageKey n "_header_el_" 11) =
          some (stringifyRows ((tableData.drop (7 * n - 10)).take 7)) ∧
        ilookup out.inputs (pageKey n "_header_el_" 7) =
          some "01.05.2024 - 31.05.2024" ∧
        ilookup out.inputs (pageKey n "_header_el_" 10) = some "May 2024" ∧
        ilookup out.inputs (pageKey n "_footer_el_" 4) =
          some ("Page " ++ natStr n ++ " of " ++ natStr 6) :=
  ⟨samplePage_fresh3,
   C3_additional_page_shape sampleDoc samplePage
    (mkEl "rectangle" "" (Dec.ofInt 0) (Dec.ofInt 0))
    (mkEl "readOnlySvg" "<svg/>" (Dec.ofInt 10) (Dec.ofInt 10))
    (mkEl "line" "" (Dec.ofInt 0) (Dec.mk 124 1))
    (mkEl "readOnlyText" "Lunu Pay GmbH" (Dec.ofInt 10) (Dec.ofInt 5))
    (mkEl "readOnlyText" "Transactions report" (Dec.ofInt 10) (Dec.ofInt 33))
    (mkEl "readOnlyText" "Period" (Dec.ofInt 10) (Dec.ofInt 35))
    (mkEl "text" "01.05.2024 - 31.05.2024" (Dec.ofInt 10) (Dec.ofInt 41))
    (mkEl "rectangle" "" (Dec.ofInt 0) (Dec.ofInt 55))
    (mkEl "readOnlyText" "Transactions" (Dec.ofInt 10) (Dec.ofInt 59))
    (mkEl "text" "May 2024" (Dec.ofInt 10) (Dec.ofInt 59))
    (mkEl "tableBeta" "[]" (Dec.ofInt 10) (Dec.ofInt 67))
    (mkEl "line" "" (Dec.ofInt 10) (Dec.ofInt 214))
    (mkEl "readOnlyText" "footer2" (Dec.ofInt 10) (Dec.ofInt 230))
    (mkEl "readOnlyText" "footer3" (Dec.ofInt 10) (Dec.ofInt 228))
    (mkEl "text" "Page 1 of 6" (Dec.ofInt 180) (Dec.ofInt 239))
    (fun _ => hrEl) rfl rfl rfl rfl rfl rfl rfl rfl rfl rfl rfl rfl rfl rfl
    rfl rfl samplePage_hr samplePage_fresh3⟩

/-- C10: the pagination run never repositions the original page's 11
header elements: on the original first page only the four footer
elements' y positions and the pages label's content change, and every
entry outside the four footer keys — the header elements included — is
exactly as before. -/
theorem C10_original_page_frame (doc0 : Doc) (p0 : Page)
    (e1 e2 e3 e4 e5 e6 e7 e8 e9 e10 e11 f1 f2 f3 f4 : Element)
    (flds : Nat → Element)
    (hs : doc0.schemas = [p0])
    (h1 : plookup p0 "header_rect" = some e1)
    (h2 : plookup p0 "logo" = some e2)
    (h3 : plookup p0 "header_rect_hr" = some e3)
    (h4 : plookup p0 "lunu_address" = some e4)
    (h5 : plookup p0 "header_title" = some e5)
    (h6 : plookup p0 "period_title" = some e6)
    (h7 : plookup p0 "period" = some e7)
    (h8 : plookup p0 "table_header_rect" = some e8)
    (h9 : plookup p0 "table_header_title" = some e9)
    (h10 : plookup p0 "table_period" = some e10)
    (h11 : plookup p0 "table" = some e11)
    (hf1 : plookup p0 "footer_el_1" = some f1)
    (hf2 : plookup p0 "footer_el_2" = some f2)
    (hf3 : plookup p0 "footer_el_3" = some f3)
    (hf4 : plookup p0 "pages" = some f4)
    (hfl : ∀ i, i < 87 → plookup p0 ("field" ++ natStr (28 + i)) = some (flds i)) :
    ∃ out, generateRoutine tableData doc0 = some out ∧
      ∃ p1, out.doc.schemas.head? = some p1 ∧
        p1.map Prod.fst = p0.map Prod.fst ∧
        (∀ k, k ∈ headerKeys → plookup p1 k = plookup p0 k) ∧
        (∀ k, k ∉ footerKeys → plookup p1 k = plookup p0 k) ∧
        plookup p1 "footer_el_1" = some (setY f1 (Dec.mk 214 0)) ∧
        plookup p1 "footer_el_2" = some (setY f2 (Dec.mk 230 0)) ∧
        plookup p1 "footer_el_3" = some (setY f3 (Dec.mk 228 0)) ∧
        plookup p1 "pages" =
          some { setY f4 (Dec.mk 239 0) with content := "Page 1 of 6" } := by
  have run := generateRoutine_run tableData doc0 p0 e1 e2 e3 e4 e5 e6 e7 e8 e9
    e10 e11 f1 f2 f3 f4 flds tableData_length hs h1 h2 h3 h4 h5 h6 h7 h8 h9
    h10 h11 hf1 hf2 hf3 hf4 hfl
  refine ⟨_, run, page1F p0 f1 f2 f3 f4, rfl, keys_page1F p0 f1 f2 f3 f4,
    ?_, ?_, plookup_page1F_footer1 p0 f1 f2 f3 f4 f1 hf1,
    plookup_page1F_footer2 p0 f1 f2 f3 f4 f2 hf2,
    plookup_page1F_footer3 p0 f1 f2 f3 f4 f3 hf3,
    plookup_page1F_pages p0 f1 f2 f3 f4 f4 hf4⟩
  · intro k hk
    simp only [headerKeys, List.mem_cons, List.not_mem_nil, or_false] at hk
    rcases hk with hk | hk | hk | hk | hk | hk | hk | hk | hk | hk | hk <;>
      subst hk <;>
      exact plookup_page1F_ne p0 f1 f2 f3 f4 _ (by decide) (by decide)
        (by decide) (by decide)
  · intro k hk
    simp only [footerKeys, List.mem_cons, List.not_mem_nil, or_false,
      not_or] at hk
    exact plookup_page1F_ne p0 f1 f2 f3 f4 k hk.1 hk.2.1 hk.2.2.1 hk.2.2.2

/-- C10 witness: the sample template's run, with the four mutated footer
entries and the untouched header entries checked concretely. -/
theorem C10_original_page_frame_witness :
    plookup samplePage "pages" =
      some (mkEl "text" "Page 1 of 6" (Dec.ofInt 180) (Dec.ofInt 239)) ∧
    ∃ out, generateRoutine tableData sampleDoc = some out ∧
      ∃ p1, out.doc.schemas.head? = some p1 ∧
        p1.map Prod.fst = samplePage.map Prod.fst ∧
        (∀ k, k ∈ headerKeys → plookup p1 k = plookup samplePage k) ∧
        (∀ k, k ∉ footerKeys → plookup p1 k = plookup samplePage k) ∧
        plookup p1 "footer_el_1" =
          some (setY (mkEl "line" "" (Dec.ofInt 10) (Dec.ofInt 214)) (Dec.mk 214 0)) ∧
        plookup p1 "footer_el_2" =
          some (setY (mkEl "readOnlyText" "footer2" (Dec.ofInt 10) (Dec.ofInt 230)) (Dec.mk 230 0)) ∧
        plookup p1 "footer_el_3" =
          some (setY (mkEl "readOnlyText" "footer3" (Dec.ofInt 10) (Dec.ofInt 228)) (Dec.mk 228 0)) ∧
        plookup p1 "pages" =
          some { setY (mkEl "text" "Page 1 of 6" (Dec.ofInt 180) (Dec.ofInt 239))
              (Dec.mk 239 0) with content := "Page 1 of 6" } :=
  ⟨rfl,
   C10_original_page_frame sampleDoc samplePage
    (mkEl "rectangle" "" (Dec.ofInt 0) (Dec.ofInt 0))
    (mkEl "readOnlySvg" "<svg/>" (Dec.ofInt 10) (Dec.ofInt 10))
    (mkEl "line" "" (Dec.ofInt 0) (Dec.mk 124 1))
    (mkEl "readOnlyText" "Lunu Pay GmbH" (Dec.ofInt 10) (Dec.ofInt 5))
    (mkEl "readOnlyText" "Transactions report" (Dec.ofInt 10) (Dec.ofInt 33))
    (mkEl "readOnlyText" "Period" (Dec.ofInt 10) (Dec.ofInt 35))
    (mkEl "text" "01.05.2024 - 31.05.2024" (Dec.ofInt 10) (Dec.ofInt 41))
    (mkEl "rectangle" "" (Dec.ofInt 0) (Dec.ofInt 55))
    (mkEl "readOnlyText" "Transactions" (Dec.ofInt 10) (Dec.ofInt 59))
    (mkEl "text" "May 2024" (Dec.ofInt 10) (Dec.ofInt 59))
    (mkEl "tableBeta" "[]" (Dec.ofInt 10) (Dec.ofInt 67))
    (mkEl "line" "" (Dec.ofInt 10) (Dec.ofInt 214))
    (mkEl "readOnlyText" "footer2" (Dec.ofInt 10) (Dec.ofInt 230))
    (mkEl "readOnlyText" "footer3" (Dec.ofInt 10) (Dec.ofInt 228))
    (mkEl "text" "Page 1 of 6" (Dec.ofInt 180) (Dec.ofInt 239))
    (fun _ => hrEl) rfl rfl rfl rfl rfl rfl rfl rfl rfl rfl rfl rfl rfl rfl
    rfl rfl samplePage_hr⟩

/-! ### The single-page branch -/

theorem keys_writeFooters4 (p0 : Page) (g1 g2 g3 g4 : Element) :
    (writeFooters p0 [g1, g2, g3, g4]).map Prod.fst = p0.map Prod.fst := by
  show (pset (pset (pset (pset p0 "footer_el_1" g1) "footer_el_2" g2)
    "footer_el_3" g3) "pages" g4).map Prod.fst = p0.map Prod.fst
  simp only [keys_pset]

theorem plookup_writeFooters4_ne (p0 : Page) (g1 g2 g3 g4 : Element)
    (k : String) (hk1 : k ≠ "footer_el_1") (hk2 : k ≠ "footer_el_2")
    (hk3 : k ≠ "footer_el_3") (hk4 : k ≠ "pages") :
    plookup (writeFooters p0 [g1, g2, g3, g4]) k = plookup p0 k := by
  show plookup (pset (pset (pset (pset p0 "footer_el_1" g1) "footer_el_2" g2)
    "footer_el_3" g3) "pages" g4) k = plookup p0 k
  rw [plookup_pset_ne _ _ _ _ hk4, plookup_pset_ne _ _ _ _ hk3,
    plookup_pset_ne _ _ _ _ hk2, plookup_pset_ne _ _ _ _ hk1]

theorem plookup_writeFooters4_f1 (p0 : Page) (g1 g2 g3 g4 e : Element)
    (hf1 : plookup p0 "footer_el_1" = some e) :
    plookup (writeFooters p0 [g1, g2, g3, g4]) "footer_el_1" = some g1 := by
  show plookup (pset (pset (pset (pset p0 "footer_el_1" g1) "footer_el_2" g2)
    "footer_el_3" g3) "pages" g4) "footer_el_1" = some g1
  rw [plookup_pset_ne _ _ _ _ (by decide), plookup_pset_ne _ _ _ _ (by decide),
    plookup_pset_ne _ _ _ _ (by decide)]
  exact plookup_pset_self _ _ e _ hf1

theorem plookup_writeFooters4_f2 (p0 : Page) (g1 g2 g3 g4 e : Element)
    (hf2 : plookup p0 "footer_el_2" = some e) :
    plookup (writeFooters p0 [g1, g2, g3, g4]) "footer_el_2" = some g2 := by
  show plookup (pset (pset (pset (pset p0 "footer_el_1" g1) "footer_el_2" g2)
    "footer_el_3" g3) "pages" g4) "footer_el_2" = some g2
  rw [plookup_pset_ne _ _ _ _ (by decide), plookup_pset_ne _ _ _ _ (by decide)]
  apply plookup_pset_self
  rw [plookup_pset_ne _ _ _ _ (by decide)]
  exact hf2

theorem plookup_writeFooters4_f3 (p0 : Page) (g1 g2 g3 g4 e : Element)
    (hf3 : plookup p0 "footer_el_3" = some e) :
    plookup (writeFooters p0 [g1, g2, g3, g4]) "footer_el_3" = some g3 := by
  show plookup (pset (pset (pset (pset p0 "footer_el_1" g1) "footer_el_2" g2)
    "footer_el_3" g3) "pages" g4) "footer_el_3" = some g3
  rw [plookup_pset_ne _ _ _ _ (by decide)]
  apply plookup_pset_self
  rw [plookup_pset_ne _ _ _ _ (by decide), plookup_pset_ne _ _ _ _ (by decide)]
  exact hf3

theorem plookup_writeFooters4_pages (p0 : Page) (g1 g2 g3 g4 e : Element)
    (hf4 : plookup p0 "pages" = some e) :
    plookup (writeFooters p0 [g1, g2, g3, g4]) "pages" = some g4 := by
  show plookup (pset (pset (pset (pset p0 "footer_el_1" g1) "footer_el_2" g2)
    "footer_el_3" g3) "pages" g4) "pages" = some g4
  apply plookup_pset_self
  rw [plookup_pset_ne _ _ _ _ (by decide), plookup_pset_ne _ _ _ _ (by decide),
    plookup_pset_ne _ _ _ _ (by decide)]
  exact hf4

/-- C2 (amended): for a table of at most 4 rows the routine keeps a single
schema page, assigns the JSON encoding of all rows to the table value,
repositions the four footers anchored at 277 - 21*(rowCount - 1) — but the
final pages value is "Page 1 of 1" only when the page's pages element is
not text-typed; when it is text-typed (as in the real template) the
text-copy loop overwrites the entry with the element's unmodified content,
because the else branch, unlike the pagination branch, never rewrites
schema.pages.content. -/
theorem C2_single_page (tbl : List (List String)) (doc0 : Doc) (p0 : Page)
    (f1 f2 f3 f4 : Element)
    (hs : doc0.schemas = [p0])
    (hlen : tbl.length ≤ PAGE_1_TABLE_ROWS_MAX)
    (hnod : (p0.map Prod.fst).Nodup)
    (hf1 : plookup p0 "footer_el_1" = some f1)
    (hf2 : plookup p0 "footer_el_2" = some f2)
    (hf3 : plookup p0 "footer_el_3" = some f3)
    (hf4 : plookup p0 "pages" = some f4)
    (htbl : ∀ e, plookup p0 "table" = some e → ¬ e.type = "text") :
    ∃ out, generateRoutine tbl doc0 = some out ∧
      out.doc.schemas.length = 1 ∧
      ilookup out.inputs "table" = some (stringifyRows tbl) ∧
      (∃ p1, out.doc.schemas.head? = some p1 ∧
        plookup p1 "footer_el_1" =
          some (setY f1 (Dec.ofInt (277 - 21 * ((tbl.length : Int) - 1)))) ∧
        plookup p1 "footer_el_2" =
          some (setY f2 (Dec.ofInt (277 - 21 * ((tbl.length : Int) - 1)) + Dec.ofInt 16)) ∧
        plookup p1 "footer_el_3" =
          some (setY f3 (Dec.ofInt (277 - 21 * ((tbl.length : Int) - 1)) + Dec.ofInt 14)) ∧
        plookup p1 "pages" =
          some (setY f4 (Dec.ofInt (277 - 21 * ((tbl.length : Int) - 1)) + Dec.ofInt 25))) ∧
      ilookup out.inputs "pages" =
        (if f4.type = "text" then some f4.content else some "Page 1 of 1") := by
  have hF : optSequence (footerKeys.map (plookup p0)) = some [f1, f2, f3, f4] := by
    simp [footerKeys, optSequence, hf1, hf2, hf3, hf4]
  have hlt : ¬ PAGE_1_TABLE_ROWS_MAX < tbl.length := by
    simp only [PAGE_1_TABLE_ROWS_MAX] at *
    omega
  have heq : generateRoutine tbl doc0 = some
      ⟨⟨doc0.basePdf,
        [writeFooters p0
          [setY f1 (Dec.ofInt (277 - 21 * ((tbl.length : Int) - 1))),
           setY f2 (Dec.ofInt (277 - 21 * ((tbl.length : Int) - 1)) + Dec.ofInt 16),
           setY f3 (Dec.ofInt (277 - 21 * ((tbl.length : Int) - 1)) + Dec.ofInt 14),
           setY f4 (Dec.ofInt (277 - 21 * ((tbl.length : Int) - 1)) + Dec.ofInt 25)]]⟩,
       textCopy
        (writeFooters p0
          [setY f1 (Dec.ofInt (277 - 21 * ((tbl.length : Int) - 1))),
           setY f2 (Dec.ofInt (277 - 21 * ((tbl.length : Int) - 1)) + Dec.ofInt 16),
           setY f3 (Dec.ofInt (277 - 21 * ((tbl.length : Int) - 1)) + Dec.ofInt 14),
           setY f4 (Dec.ofInt (277 - 21 * ((tbl.length : Int) - 1)) + Dec.ofInt 25)])
        [("table", stringifyRows tbl), ("pages", "Page 1 of 1")]⟩ := by
    rw [generateRoutine, hs]
    simp only [List.head?]
    rw [if_neg hlt, hF]
    rfl
  have hnod1 : ((writeFooters p0
      [setY f1 (Dec.ofInt (277 - 21 * ((tbl.length : Int) - 1))),
       setY f2 (Dec.ofInt (277 - 21 * ((tbl.length : Int) - 1)) + Dec.ofInt 16),
       setY f3 (Dec.ofInt (277 - 21 * ((tbl.length : Int) - 1)) + Dec.ofInt 14),
       setY f4 (Dec.ofInt (277 - 21 * ((tbl.length : Int) - 1)) + Dec.ofInt 25)]).map
      Prod.fst).Nodup := by
    rw [keys_writeFooters4]
    exact hnod
  refine ⟨_, heq, rfl, ?_, ?_, ?_⟩
  · rw [textCopy_not_text _ _ "table" hnod1 ?_]
    · rfl
    · intro e' he'
      rw [plookup_writeFooters4_ne _ _ _ _ _ _ (by decide) (by decide)
        (by decide) (by decide)] at he'
      exact htbl e' he'
  · exact ⟨_, rfl,
      plookup_writeFooters4_f1 p0 _ _ _ _ f1 hf1,
      plookup_writeFooters4_f2 p0 _ _ _ _ f2 hf2,
      plookup_writeFooters4_f3 p0 _ _ _ _ f3 hf3,
      plookup_writeFooters4_pages p0 _ _ _ _ f4 hf4⟩
  · have hpg := plookup_writeFooters4_pages p0
      (setY f1 (Dec.ofInt (277 - 21 * ((tbl.length : Int) - 1))))
      (setY f2 (Dec.ofInt (277 - 21 * ((tbl.length : Int) - 1)) + Dec.ofInt 16))
      (setY f3 (Dec.ofInt (277 - 21 * ((tbl.length : Int) - 1)) + Dec.ofInt 14))
      (setY f4 (Dec.ofInt (277 - 21 * ((tbl.length : Int) - 1)) + Dec.ofInt 25))
      f4 hf4
    by_cases hft : f4.type = "text"
    · rw [if_pos hft, textCopy_text _ _ "pages" _ hnod1 hpg hft]
      rfl
    · rw [if_neg hft, textCopy_not_text _ _ "pages" hnod1 ?_]
      · rfl
      · intro e' he'
        rw [hpg] at he'
        cases he'
        exact hft

/-- A small template document for the single-page branch: the four footer
entries (the pages label text-typed with stale content, as in the real
template) and a non-text table element. -/
def cePage : Page :=
  [("footer_el_1", mkEl "line" "" (Dec.ofInt 10) (Dec.ofInt 214)),
   ("footer_el_2", mkEl "readOnlyText" "footer2" (Dec.ofInt 10) (Dec.ofInt 230)),
   ("footer_el_3", mkEl "readOnlyText" "footer3" (Dec.ofInt 10) (Dec.ofInt 228)),
   ("pages", mkEl "text" "stale label" (Dec.ofInt 180) (Dec.ofInt 239)),
   ("table", mkEl "tableBeta" "[]" (Dec.ofInt 10) (Dec.ofInt 67))]

def ceDoc : Doc := ⟨⟨[]⟩, [cePage]⟩

/-- C2 witness: a 3-row table on the small template keeps one page,
carries all three rows in the table value, anchors the footers at
277 - 21*(3-1), and — the pages label being text-typed — ends with the
stale label as the pages value. -/
theorem C2_single_page_witness :
    (tableData.take 3).length ≤ PAGE_1_TABLE_ROWS_MAX ∧
    ∃ out, generateRoutine (tableData.take 3) ceDoc = some out ∧
      out.doc.schemas.length = 1 ∧
      ilookup out.inputs "table" = some (stringifyRows (tableData.take 3)) ∧
      (∃ p1, out.doc.schemas.head? = some p1 ∧
        plookup p1 "footer_el_1" =
          some (setY (mkEl "line" "" (Dec.ofInt 10) (Dec.ofInt 214))
            (Dec.ofInt (277 - 21 * (((tableData.take 3).length : Int) - 1)))) ∧
        plookup p1 "footer_el_2" =
          some (setY (mkEl "readOnlyText" "footer2" (Dec.ofInt 10) (Dec.ofInt 230))
            (Dec.ofInt (277 - 21 * (((tableData.take 3).length : Int) - 1)) + Dec.ofInt 16)) ∧
        plookup p1 "footer_el_3" =
          some (setY (mkEl "readOnlyText" "footer3" (Dec.ofInt 10) (Dec.ofInt 228))
            (Dec.ofInt (277 - 21 * (((tableData.take 3).length : Int) - 1)) + Dec.ofInt 14)) ∧
        plookup p1 "pages" =
          some (setY (mkEl "text" "stale label" (Dec.ofInt 180) (Dec.ofInt 239))
            (Dec.ofInt (277 - 21 * (((tableData.take 3).length : Int) - 1)) + Dec.ofInt 25))) ∧
      ilookup out.inputs "pages" = some "stale label" :=
  ⟨by decide,
   C2_single_page (tableData.take 3) ceDoc cePage
    (mkEl "line" "" (Dec.ofInt 10) (Dec.ofInt 214))
    (mkEl "readOnlyText" "footer2" (Dec.ofInt 10) (Dec.ofInt 230))
    (mkEl "readOnlyText" "footer3" (Dec.ofInt 10) (Dec.ofInt 228))
    (mkEl "text" "stale label" (Dec.ofInt 180) (Dec.ofInt 239))
    rfl (by decide) (by decide) rfl rfl rfl rfl
    (by intro e he; cases he; decide)⟩

/-- C2 counterexample to the claimed pages value: on the small template
(whose pages label is a text field, as in the real one) a 3-row table
yields a pages value equal to the stale template content, not
"Page 1 of 1". -/
theorem C2_pages_counterexample :
    ((generateRoutine (tableData.take 3) ceDoc).bind
      (fun out => ilookup out.inputs "pages")) = some "stale label" ∧
    some "stale label" ≠ some "Page 1 of 1" := by
  constructor
  · rfl
  · decide

/-- C4: a generate click operates on a serialize-then-parse snapshot: the
routine receives exactly the snapshot of the live document (which the
round trip maps to the document itself), and the designer's live document
is identical before and after the handler. -/
theorem C4_snapshot_isolation (live : Doc) :
    (generateClick live).1 = live ∧
    (generateClick live).2 = generateRoutine tableData live := by
  rw [generateClick, docRoundtrip_id]
  cases h : generateRoutine tableData live <;> simp [h]

/-- C5: exporting a document (pretty-printed JSON serialization) and
importing the exported text yields the very document back: parse after
stringify is the identity, both on the JSON value and on the decoded
document. -/
theorem C5_export_import_roundtrip (st : AppState) (j : Json) :
    uploadOnLoad (getTemplateJSONString st) j = docToJson st.designerTemplate ∧
    docOfJson (uploadOnLoad (getTemplateJSONString st) j) =
      some st.designerTemplate := by
  have h : parseJsonText (renderPretty (docToJson st.designerTemplate)) =
      some (docToJson st.designerTemplate) := jsonRoundtrip _
  refine ⟨?_, ?_⟩
  · rw [uploadOnLoad, getTemplateJSONString, h]
  · rw [uploadOnLoad, getTemplateJSONString, h]
    exact docOfJson_docToJson _

/-- C6: on a file whose text is not valid JSON the upload handler leaves
the designer's document unchanged (the parse failure is caught and only
logged; updateTemplate is never reached). -/
theorem C6_invalid_upload_unchanged (text : String) (j : Json)
    (h : parseJsonText text = none) : uploadOnLoad text j = j := by
  rw [uploadOnLoad, h]

/-- C6 witness: a concrete invalid JSON text. -/
theorem C6_invalid_upload_unchanged_witness :
    parseJsonText "\x7b invalid" = none ∧
    uploadOnLoad "\x7b invalid" Json.null = Json.null :=
  ⟨rfl, C6_invalid_upload_unchanged "\x7b invalid" Json.null rfl⟩

/-- C7: on a document with a 4-component padding tuple, the top padding
input's change handler with value "12" sets component 0 to 12 and leaves
components 1, 2, 3 and the schema pages unchanged. -/
theorem C7_padding_top_frame (live : Doc) (p0 p1 p2 p3 : Option Dec)
    (h : live.basePdf.padding = [p0, p1, p2, p3]) :
    (paddingChange 0 "12" live).basePdf.padding =
      [some (Dec.mk 12 0), p1, p2, p3] ∧
    (paddingChange 0 "12" live).schemas = live.schemas := by
  rw [paddingChange, docRoundtrip_id]
  refine ⟨?_, rfl⟩
  show live.basePdf.padding.set 0 (jsParseFloat "12") = _
  rw [h]
  rfl

/-- C7 witness: the sample document's padding becomes [12, 10, 10, 10]. -/
theorem C7_padding_top_frame_witness :
    sampleDoc.basePdf.padding = [some (Dec.ofInt 10), some (Dec.ofInt 10),
      some (Dec.ofInt 10), some (Dec.ofInt 10)] ∧
    (paddingChange 0 "12" sampleDoc).basePdf.padding =
      [some (Dec.mk 12 0), some (Dec.ofInt 10), some (Dec.ofInt 10),
       some (Dec.ofInt 10)] ∧
    (paddingChange 0 "12" sampleDoc).schemas = sampleDoc.schemas :=
  ⟨rfl, C7_padding_top_frame sampleDoc (some (Dec.ofInt 10))
    (some (Dec.ofInt 10)) (some (Dec.ofInt 10)) (some (Dec.ofInt 10)) rfl⟩

/-- C8: the autosave checkbox initializes to whether the autosave store
key is present; a widget edit writes the serialized current document to
the template store key exactly when the checkbox is checked (and never
touches it otherwise); toggling writes or removes the autosave key. -/
theorem C8_autosave_behavior (st : AppState) (t : Doc) (b : Bool) :
    (initAutosave st).autosaveChecked = st.storeAutosave.isSome ∧
    (designerEdit t st).storeTemplate =
      (if st.autosaveChecked then some (renderPretty (docToJson t))
       else st.storeTemplate) ∧
    (designerEdit t st).designerTemplate = t ∧
    (autosaveToggle b st).storeAutosave = (if b then some "true" else none) ∧
    (autosaveToggle b st).autosaveChecked = b := by
  refine ⟨rfl, ?_, ?_, ?_, ?_⟩ <;>
    cases hb : st.autosaveChecked <;> cases b <;>
      simp [designerEdit, saveTemplate, getTemplateJSONString, autosaveToggle, hb]

/-- C9: the splice pattern partitions the 35-row sample table without
loss or duplication: the page-order chunks have lengths 4, 7, 7, 7, 7, 3
and concatenate back to the original sequence. -/
theorem C9_chunks_partition :
    (pageChunks tableData).map List.length = [4, 7, 7, 7, 7, 3] ∧
    (pageChunks tableData).flatten = tableData := by
  exact ⟨rfl, rfl⟩
